import Mathlib

/-!
# Mailgram browser controllers

A shallow embedding of `static/js/chat.js` (class `ChatApp`) and
`static/js/admin.js` (class `AdminPanel`).

* JavaScript strings are lists of characters.
* The parts of the page the controllers touch are explicit state: the children
  of `#chatMessages`, the value of `#messageInput`, the log of `socket.emit`
  calls, the rows of an admin table.
* A statement that dereferences `null` raises a `TypeError`; operations that
  can do so return an `Outcome` carrying the state reached at that point.
* Library behaviour that the ECMAScript standard leaves to the host
  (`localeCompare`, `toLowerCase`, string-to-number conversion, time
  formatting) is a parameter, the record `Host`.
* Selectors and markup are built in the source by writing values into templates
  unescaped. The model follows the selector engine for the values that read
  as written and for those that certainly give an invalid selector; the rest,
  and the reading of markup by the HTML parser, is a parameter, the record
  `Engine`.
-/

namespace Mailgram

/-! ## Strings -/

/-- A JavaScript string, as the list of its characters. -/
abbrev JSString := List Char

/-- The characters `String.prototype.trim` strips: ECMAScript `WhiteSpace` and
`LineTerminator` code points. -/
def isWhiteSpace (c : Char) : Bool :=
  let n := c.toNat
  n == 0x9 || n == 0xA || n == 0xB || n == 0xC || n == 0xD || n == 0x20 || n == 0xA0 ||
  n == 0x1680 || (0x2000 ≤ n && n ≤ 0x200A) || n == 0x2028 || n == 0x2029 || n == 0x202F ||
  n == 0x205F || n == 0x3000 || n == 0xFEFF

/-- The method `String.prototype.trim`: white space removed from both ends. -/
def trim (s : JSString) : JSString :=
  ((s.dropWhile isWhiteSpace).reverse.dropWhile isWhiteSpace).reverse

/-- The method `String.prototype.startsWith`. -/
def startsWith (s p : JSString) : Bool :=
  p.isPrefixOf s

/-- The method `String.prototype.includes`: `t` occurs in `s` as a contiguous run. -/
def includes (s t : JSString) : Bool :=
  decide (t <:+: s)

/-- Decimal digits of a natural number, as `Number.prototype.toString` prints a
non-negative integer. -/
def natToString (n : Nat) : JSString :=
  (Nat.toDigits 10 n)

/-! ## The host environment -/

/-- The host-defined library functions the controllers call, with the guarantees
ECMAScript gives for them: `localeCompare` is a consistent comparison function
and the lower-casing of the empty string is empty. -/
structure Host where
  /-- The method `a.localeCompare(b)`: negative, zero or positive. -/
  localeCompare : JSString → JSString → Int
  /-- The method `String.prototype.toLowerCase`. -/
  toLowerCase : JSString → JSString
  /-- The conversion `ToNumber` on strings, `none` when the value is not an integer. -/
  stringToNumber : JSString → Option Int
  /-- The time shown for a timestamp: `new Date(t).toLocaleTimeString('fa-IR', ...)`. -/
  formatTime : JSString → JSString
  /-- The conversion `Number::toString` of an integer of magnitude `10^21` or more,
  which is written in exponent form, such as `1e+21`. -/
  exponentForm : Int → JSString
  compare_swap : ∀ a b, localeCompare a b < 0 ↔ 0 < localeCompare b a
  compare_trans : ∀ a b c, localeCompare a b ≤ 0 → localeCompare b c ≤ 0 → localeCompare a c ≤ 0
  toLowerCase_empty : toLowerCase [] = []

/-! ## Values -/

/-- The JavaScript values an identifier can be: `undefined`, `null`, an integer
number or a string. -/
inductive JSVal where
  | undefined
  | null
  | num (n : Int)
  | str (s : JSString)
  deriving DecidableEq, Repr

/-- The conversion `ToBoolean`, as applied by `if (v)`. -/
def truthy : JSVal → Bool
  | .undefined => false
  | .null => false
  | .num n => n != 0
  | .str s => s != []

/-- The loose equality `a == b`. -/
def looseEq (H : Host) : JSVal → JSVal → Bool
  | .undefined, .undefined => true
  | .undefined, .null => true
  | .null, .undefined => true
  | .null, .null => true
  | .num a, .num b => a == b
  | .str a, .str b => a == b
  | .num a, .str b => H.stringToNumber b == some a
  | .str a, .num b => H.stringToNumber a == some b
  | _, _ => false

/-- The conversion `Number::toString` on an integer: all the digits below
`10^21`, the host's exponent form from there on. -/
def numberToString (H : Host) (n : Int) : JSString :=
  if n.natAbs < 10 ^ 21 then
    match n with
    | .ofNat k => natToString k
    | .negSucc k => '-' :: natToString (k + 1)
  else H.exponentForm n

/-- The conversion `ToString`, as applied when a value is stored in a `data-`
attribute or interpolated in a template. -/
def toStr (H : Host) : JSVal → JSString
  | .undefined => ['u', 'n', 'd', 'e', 'f', 'i', 'n', 'e', 'd']
  | .null => ['n', 'u', 'l', 'l']
  | .num n => numberToString H n
  | .str s => s

/-! ## Outcomes -/

/-- The result of running a handler: it returned, or it raised a `TypeError`;
either way with the state reached. -/
inductive Outcome (σ : Type) where
  | ok (s : σ)
  | threw (s : σ)
  deriving DecidableEq, Repr

/-- The state an outcome ends in. -/
def Outcome.state {σ : Type} : Outcome σ → σ
  | .ok s => s
  | .threw s => s

/-- Whether the handler returned normally. -/
def Outcome.isOk {σ : Type} : Outcome σ → Bool
  | .ok _ => true
  | .threw _ => false

/-- Sequencing: the next statement runs only if the previous one returned. -/
def Outcome.bind {σ : Type} (o : Outcome σ) (f : σ → Outcome σ) : Outcome σ :=
  match o with
  | .ok s => f s
  | .threw s => .threw s

/-! ## chat.js: data -/

def TEXT : JSString := ['t', 'e', 'x', 't']
def IMAGE : JSString := ['i', 'm', 'a', 'g', 'e']
def VIDEO : JSString := ['v', 'i', 'd', 'e', 'o']
def AUDIO : JSString := ['a', 'u', 'd', 'i', 'o']
def DOCUMENT : JSString := ['d', 'o', 'c', 'u', 'm', 'e', 'n', 't']
def SENT : JSString := ['s', 'e', 'n', 't']
def RECEIVED : JSString := ['r', 'e', 'c', 'e', 'i', 'v', 'e', 'd']
def TEMP : JSString := ['t', 'e', 'm', 'p', '-']
def PRIVATE_MESSAGE : JSString :=
  ['p', 'r', 'i', 'v', 'a', 't', 'e', '_', 'm', 'e', 's', 's', 'a', 'g', 'e']
def GROUP_MESSAGE : JSString :=
  ['g', 'r', 'o', 'u', 'p', '_', 'm', 'e', 's', 's', 'a', 'g', 'e']
def TYPING : JSString := ['t', 'y', 'p', 'i', 'n', 'g']

/-- A message object: a socket payload of `new_message` / `new_group_message`,
or the `tempMessage` built by the send functions. A field the object does not
have is `undefined`. -/
structure MessageData where
  id : JSVal
  group_id : JSVal
  sender_id : JSVal
  sender_name : JSVal
  content : JSString
  timestamp : JSString
  type : JSString
  deriving DecidableEq, Repr

/-- The child that `createMediaElement` puts in the media container. -/
inductive MediaChild where
  | img (src : JSString)
  | video (src : JSString)
  | audio (src : JSString)
  | link (href : JSString)
  /-- A text node, what the container holds once its `textContent` was assigned. -/
  | text (data : JSString)
  deriving DecidableEq, Repr

/-- The inside of `div.message-content`. -/
inductive Content where
  | text (textContent : JSString)
  | media (type : JSString) (child : Option MediaChild)
  deriving DecidableEq, Repr

/-- A child of `#chatMessages`: a message bubble `div.message.<direction>` or
the `div.typing-indicator`. -/
inductive Node where
  | message (direction : JSString) (messageId : JSString) (content : Content) (time : JSString)
  | typingIndicator (userName : JSVal)
  deriving DecidableEq, Repr

/-- The object passed to `socket.emit`; an absent field is `none`. -/
structure Payload where
  receiver_id : Option JSVal
  group_id : Option JSVal
  message : Option JSString
  type : Option JSString
  typing : Option Bool
  deriving DecidableEq, Repr

/-- One call `socket.emit(event, payload)`. -/
structure Emit where
  event : JSString
  payload : Payload
  deriving DecidableEq, Repr

/-- The controller with the part of the page and of the socket it acts on. -/
structure ChatApp where
  currentChat : JSVal
  currentGroup : JSVal
  /-- The global `window.currentUserId`. -/
  currentUserId : JSVal
  /-- The global `window.currentUserName`. -/
  currentUserName : JSVal
  /-- The value of `#messageInput`, `none` when the element is absent. -/
  messageInput : Option JSString
  /-- The children of `#chatMessages`, `none` when the element is absent. -/
  chatMessages : Option (List Node)
  /-- The calls of `socket.emit` so far, oldest first. -/
  emitted : List Emit
  deriving DecidableEq, Repr

/-- The readings of the clock a send takes: `Date.now()` and
`new Date().toISOString()`. -/
structure Clock where
  now : Nat
  iso : JSString

/-- The rendered message list: the children of `#chatMessages`. -/
def ChatApp.rendered (s : ChatApp) : List Node :=
  match s.chatMessages with
  | some ns => ns
  | none => []

/-! ## chat.js: operations -/

/-- The method `ChatApp.clearMessages`. -/
def clearMessages (s : ChatApp) : ChatApp :=
  match s.chatMessages with
  | some _ => { s with chatMessages := some [] }
  | none => s

/-- The method `ChatApp.scrollToBottom`: it only sets `scrollTop`, which the state
does not record. -/
def scrollToBottom (s : ChatApp) : ChatApp :=
  s

/-- The method `ChatApp.loadChatHistory`. -/
def loadChatHistory (s : ChatApp) : ChatApp :=
  scrollToBottom s

/-- The method `ChatApp.loadGroupHistory`. -/
def loadGroupHistory (s : ChatApp) : ChatApp :=
  scrollToBottom s

/-- The method `ChatApp.setCurrentChat`. -/
def setCurrentChat (userId : JSVal) (s : ChatApp) : ChatApp :=
  loadChatHistory (clearMessages { s with currentChat := userId, currentGroup := JSVal.null })

/-- The method `ChatApp.setCurrentGroup`. -/
def setCurrentGroup (groupId : JSVal) (s : ChatApp) : ChatApp :=
  loadGroupHistory (clearMessages { s with currentGroup := groupId, currentChat := JSVal.null })

/-- The method `ChatApp.createMediaElement`: the child appended to the
`div.media-message`, none when `data.type` is not one of the four cases. -/
def createMediaElement (data : MessageData) : Content :=
  Content.media data.type
    (if data.type = IMAGE then some (MediaChild.img data.content)
     else if data.type = VIDEO then some (MediaChild.video data.content)
     else if data.type = AUDIO then some (MediaChild.audio data.content)
     else if data.type = DOCUMENT then some (MediaChild.link data.content)
     else none)

/-- The method `ChatApp.createMessageElement`. -/
def createMessageElement (H : Host) (data : MessageData) (type : JSString) : Node :=
  Node.message type (toStr H data.id)
    (if data.type = TEXT then Content.text data.content else createMediaElement data)
    (H.formatTime data.timestamp)

/-- The method `ChatApp.displayMessage`: `appendChild` on a missing
`#chatMessages` raises. -/
def displayMessage (H : Host) (data : MessageData) (type : JSString) (s : ChatApp) :
    Outcome ChatApp :=
  match s.chatMessages with
  | none => Outcome.threw s
  | some ms => Outcome.ok { s with chatMessages := some (ms ++ [createMessageElement H data type]) }

/-- The call `this.socket.emit(event, payload)`. -/
def emit (event : JSString) (payload : Payload) (s : ChatApp) : ChatApp :=
  { s with emitted := s.emitted ++ [Emit.mk event payload] }

/-- The method `ChatApp.sendPrivateMessage(message)`. It declares one parameter:
the kind of both objects it builds is the literal `'text'`. -/
def sendPrivateMessage (H : Host) (clk : Clock) (message : JSString) (s : ChatApp) :
    Outcome ChatApp :=
  let messageData : Payload :=
    { receiver_id := some s.currentChat, group_id := none, message := some message,
      type := some TEXT, typing := none }
  let tempMessage : MessageData :=
    { id := JSVal.str (TEMP ++ natToString clk.now), group_id := JSVal.undefined,
      sender_id := s.currentUserId, sender_name := s.currentUserName, content := message,
      timestamp := clk.iso, type := TEXT }
  (displayMessage H tempMessage SENT s).bind fun s1 =>
    Outcome.ok (emit PRIVATE_MESSAGE messageData (scrollToBottom s1))

/-- The method `ChatApp.sendGroupMessage(message)`. It declares one parameter:
the kind of both objects it builds is the literal `'text'`. -/
def sendGroupMessage (H : Host) (clk : Clock) (message : JSString) (s : ChatApp) :
    Outcome ChatApp :=
  let messageData : Payload :=
    { receiver_id := none, group_id := some s.currentGroup, message := some message,
      type := some TEXT, typing := none }
  let tempMessage : MessageData :=
    { id := JSVal.str (TEMP ++ natToString clk.now), group_id := s.currentGroup,
      sender_id := s.currentUserId, sender_name := s.currentUserName, content := message,
      timestamp := clk.iso, type := TEXT }
  (displayMessage H tempMessage SENT s).bind fun s1 =>
    Outcome.ok (emit GROUP_MESSAGE messageData (scrollToBottom s1))

/-- The method `ChatApp.stopTyping`. -/
def stopTyping (s : ChatApp) : ChatApp :=
  if truthy s.currentChat then
    emit TYPING { receiver_id := some s.currentChat, group_id := none, message := none,
                  type := none, typing := some false } s
  else if truthy s.currentGroup then
    emit TYPING { receiver_id := none, group_id := some s.currentGroup, message := none,
                  type := none, typing := some false } s
  else s

/-- The method `ChatApp.sendMessage`. Reading `.value` of a missing
`#messageInput` raises; an empty string is falsy. -/
def sendMessage (H : Host) (clk : Clock) (s : ChatApp) : Outcome ChatApp :=
  match s.messageInput with
  | none => Outcome.threw s
  | some value =>
    let message := trim value
    if message = [] then Outcome.ok s
    else
      (if truthy s.currentChat then sendPrivateMessage H clk message s
       else if truthy s.currentGroup then sendGroupMessage H clk message s
       else Outcome.ok s).bind fun s1 =>
        Outcome.ok (stopTyping { s1 with messageInput := some [] })

/-- The listener of `new_message` in `setupSocketListeners`. -/
def onNewMessage (H : Host) (data : MessageData) (s : ChatApp) : Outcome ChatApp :=
  (displayMessage H data RECEIVED s).bind fun s1 => Outcome.ok (scrollToBottom s1)

/-- The listener of `new_group_message` in `setupSocketListeners`. -/
def onNewGroupMessage (H : Host) (data : MessageData) (s : ChatApp) : Outcome ChatApp :=
  if truthy s.currentGroup && looseEq H data.group_id s.currentGroup then
    (displayMessage H data RECEIVED s).bind fun s1 => Outcome.ok (scrollToBottom s1)
  else Outcome.ok s

/-- The JSON body of the answer of `POST /upload`. -/
structure UploadData where
  success : Bool
  file_url : JSString

/-- The method `ChatApp.uploadFile`, run at the state in which the `fetch`
promise settles; `response = none` is a rejected promise. The call sites pass
`(data.file_url, fileType)`; the callee binds only its first parameter. An
exception raised inside the `then` callback is caught by `.catch` and logged. -/
def uploadFile (H : Host) (clk : Clock) (_fileType : JSString) (response : Option UploadData)
    (s : ChatApp) : ChatApp :=
  match response with
  | none => s
  | some data =>
    if data.success then
      if truthy s.currentChat then (sendPrivateMessage H clk data.file_url s).state
      else if truthy s.currentGroup then (sendGroupMessage H clk data.file_url s).state
      else s
    else s

/-- The kind `handleFileUpload` derives from the MIME type `file.type`. -/
def fileTypeOf (mime : JSString) : JSString :=
  if startsWith mime ['i', 'm', 'a', 'g', 'e', '/'] then IMAGE
  else if startsWith mime ['v', 'i', 'd', 'e', 'o', '/'] then VIDEO
  else if startsWith mime ['a', 'u', 'd', 'i', 'o', '/'] then AUDIO
  else DOCUMENT

/-- The method `ChatApp.handleFileUpload`; `file` is `event.target.files[0]`, given
by its MIME type. -/
def handleFileUpload (H : Host) (clk : Clock) (file : Option JSString)
    (response : Option UploadData) (s : ChatApp) : ChatApp :=
  match file with
  | none => s
  | some mime => uploadFile H clk (fileTypeOf mime) response s

/-- The events `private_message` and `group_message`, as opposed to `typing`. -/
def Emit.isMessage (e : Emit) : Bool :=
  e.event == PRIVATE_MESSAGE || e.event == GROUP_MESSAGE

/-- A concrete host for examples: code-point comparison, ASCII lower-casing. -/
def compareCodePoints : JSString → JSString → Int
  | [], [] => 0
  | [], _ :: _ => -1
  | _ :: _, [] => 1
  | a :: as, b :: bs =>
    if a.toNat < b.toNat then -1
    else if b.toNat < a.toNat then 1
    else compareCodePoints as bs

theorem compareCodePoints_swap (a b : JSString) :
    compareCodePoints a b < 0 ↔ 0 < compareCodePoints b a := by
  induction a generalizing b with
  | nil => cases b <;> simp [compareCodePoints]
  | cons x xs ih =>
    cases b with
    | nil => simp [compareCodePoints]
    | cons y ys =>
      simp only [compareCodePoints]
      by_cases h1 : x.toNat < y.toNat
      · have h2 : ¬ y.toNat < x.toNat := by omega
        simp [h1, h2]
      · by_cases h2 : y.toNat < x.toNat
        · simp [h1, h2]
        · simp [h1, h2, ih]

theorem compareCodePoints_trans (a b c : JSString) :
    compareCodePoints a b ≤ 0 → compareCodePoints b c ≤ 0 → compareCodePoints a c ≤ 0 := by
  induction a generalizing b c with
  | nil => cases c <;> simp [compareCodePoints]
  | cons x xs ih =>
    cases b with
    | nil => simp [compareCodePoints]
    | cons y ys =>
      cases c with
      | nil => simp [compareCodePoints]
      | cons z zs =>
        simp only [compareCodePoints]
        by_cases h1 : x.toNat < y.toNat
        · by_cases h3 : y.toNat < z.toNat
          · have h5 : x.toNat < z.toNat := by omega
            simp [h1, h3, h5]
          · by_cases h4 : z.toNat < y.toNat
            · simp [h1, h3, h4]
            · have h5 : x.toNat < z.toNat := by omega
              simp [h1, h3, h4, h5]
        · by_cases h2 : y.toNat < x.toNat
          · simp [h1, h2]
          · by_cases h3 : y.toNat < z.toNat
            · have h5 : x.toNat < z.toNat := by omega
              simp [h1, h2, h3, h5]
            · by_cases h4 : z.toNat < y.toNat
              · simp [h1, h2, h3, h4]
              · have h5 : ¬ x.toNat < z.toNat := by omega
                have h6 : ¬ z.toNat < x.toNat := by omega
                simp only [h1, h2, h3, h4, h5, h6, if_false]
                exact ih ys zs

/-- A decimal string-to-number conversion for the example host. -/
def decimalToNumber (s : JSString) : Option Int :=
  let t := trim s
  if t.all Char.isDigit then some (Int.ofNat (t.foldl (fun n c => 10 * n + (c.toNat - 48)) 0))
  else none

/-- An exponent form for the example host: the digits without their trailing
zeros, a point after the first, and the decimal exponent. -/
def exampleExponentForm (n : Int) : JSString :=
  let digits := natToString n.natAbs
  let mantissa := (digits.reverse.dropWhile fun c => c == '0').reverse
  (if n < 0 then ['-'] else []) ++ mantissa.take 1 ++
    (if 1 < mantissa.length then '.' :: mantissa.drop 1 else []) ++
    ['e', '+'] ++ natToString (digits.length - 1)

/-- A concrete host: code-point comparison, ASCII lower-casing, decimal
string-to-number conversion, the `HH:MM` part of an ISO timestamp. -/
def asciiHost : Host where
  localeCompare := compareCodePoints
  toLowerCase := List.map Char.toLower
  stringToNumber := decimalToNumber
  formatTime := fun t => (t.drop 11).take 5
  exponentForm := exampleExponentForm
  compare_swap := compareCodePoints_swap
  compare_trans := compareCodePoints_trans
  toLowerCase_empty := rfl

/-! ## admin.js: data -/

def ASC : JSString := ['a', 's', 'c']
def DESC : JSString := ['d', 'e', 's', 'c']
def NONE : JSString := ['n', 'o', 'n', 'e']
def SORT_ASC : JSString := ['s', 'o', 'r', 't', '-', 'a', 's', 'c']
def SORT_DESC : JSString := ['s', 'o', 'r', 't', '-', 'd', 'e', 's', 'c']

/-- A child node of a body row: a text node (the white space of the markup) or
a `td` cell with its text content. -/
inductive RowChild where
  | text (data : JSString)
  | td (textContent : JSString)
  deriving DecidableEq, Repr

/-- A body row `tr`, with its inline `style.display`. -/
structure Tr where
  children : List RowChild
  display : JSString
  deriving DecidableEq, Repr

/-- A header cell `th`. -/
structure Th where
  /-- The attribute `data-sort`, `none` when absent. -/
  dataSort : Option JSString
  textContent : JSString
  classList : List JSString
  deriving DecidableEq, Repr

/-- An admin table: the attribute `data-sort-order`, the `th` cells in document
order and the `tr` rows of the `tbody`. -/
structure Table where
  sortOrder : Option JSString
  headers : List Th
  rows : List Tr
  deriving DecidableEq, Repr

/-- The text of a child node. -/
def RowChild.textContent : RowChild → JSString
  | .text data => data
  | .td textContent => textContent

/-- The property `row.textContent`: the texts of all children, concatenated. -/
def Tr.textContent (row : Tr) : JSString :=
  (row.children.map RowChild.textContent).flatten

/-- The texts of the `td` cells of a row, in order. -/
def Tr.cells (row : Tr) : List JSString :=
  row.children.filterMap fun c =>
    match c with
    | .text _ => none
    | .td textContent => some textContent

/-- The text of `row.querySelector('td:nth-child(n)')`, `none` when there is no
such cell. Text nodes are not counted by `nth-child`. -/
def tdNthChild (row : Tr) (n : Nat) : Option JSString :=
  if n = 0 then none else row.cells[n - 1]?

/-- Whether the inline style leaves the row shown. -/
def Tr.visible (row : Tr) : Bool :=
  row.display != NONE

/-! ## Selectors and markup built from values

The source builds selectors and markup by writing a value into a template as
it is, without escaping. For a value free of the characters that end or alter
a quoted string the text is the attribute test it was written to be. For the
other values the text is something else: an invalid selector, or a valid one
that selects other elements. -/

/-- What the selector engine makes of `[name="${value}"]`. -/
inductive SelectorReading where
  /-- The attribute test on `value`, as written. -/
  | equals (value : JSString)
  /-- Not a selector: `querySelector` raises a `SyntaxError`. -/
  | invalid
  /-- A selector, but another one than the attribute test on the value. -/
  | hostDefined
  deriving DecidableEq, Repr

/-- The characters that leave a double-quoted selector string as written: all
but the double quote, the backslash, the line breaks and the null character. -/
def isSelectorSafe (c : Char) : Bool :=
  c != '"' && c != '\\' && c != '\n' && c != '\r' && c != '\x0c' && c != '\x00'

/-- Whether a value reads as written inside `[name="${value}"]`. -/
def selectorSafe (value : JSString) : Bool :=
  value.all isSelectorSafe

/-- The reading of `[name="${value}"]`. A safe value gives the attribute test.
A value with a double quote and no backslash, closing bracket or slash ends
the string early and leaves tokens behind it that no attribute test allows:
the selector is invalid. Every other value is left to the engine. -/
def readAttrValue (value : JSString) : SelectorReading :=
  if selectorSafe value then SelectorReading.equals value
  else if value.contains '"' && value.all (fun c => c != '\\' && c != ']' && c != '/') then
    SelectorReading.invalid
  else SelectorReading.hostDefined

/-- The answer of `table.querySelector` to a header selector that is not the
attribute test it was written to be. -/
inductive HeaderQuery where
  | syntaxError
  /-- The `th` cell at this position among the headers. -/
  | header (index : Nat)
  /-- No element, or an element that is not one of the header cells. -/
  | noHeader
  deriving DecidableEq, Repr

/-- The selector engine and the HTML parser of the host, where the model does
not follow them itself. -/
structure Engine where
  /-- The element found for `th[data-sort="${column}"]` when the column name
  does not read as written. -/
  headerQuery : JSString → Table → HeaderQuery
  /-- What `updateMessageTimestamp(messageId, timestamp)` ends in when the
  selector is not the attribute test on the id, or when the page holds elements
  built from markup, which may carry any attribute. -/
  messageQuery : JSVal → JSString → ChatApp → Outcome ChatApp
  /-- The number of elements of class `typing-indicator` that the HTML parser
  builds from a text written into `innerHTML`. -/
  markupIndicators : JSString → Nat
  /-- A text without `<` holds no tag: the parser builds no element from it. -/
  markup_plain : ∀ text : JSString, '<' ∉ text → markupIndicators text = 0

/-- The number of places where `pattern` occurs in `text`. -/
def countOccurrences (pattern : JSString) : JSString → Nat
  | [] => 0
  | c :: cs => (if pattern.isPrefixOf (c :: cs) then 1 else 0) + countOccurrences pattern cs

/-- An engine for examples: it rejects every selector it is asked about, and
counts the tags that spell `class="typing-indicator"`. -/
def exampleEngine : Engine where
  headerQuery := fun _ _ => HeaderQuery.syntaxError
  messageQuery := fun _ _ s => Outcome.threw s
  markupIndicators := fun text =>
    if '<' ∈ text then countOccurrences "class=\"typing-indicator\"".toList text else 0
  markup_plain := fun text h => by simp [h]

/-! ## admin.js: operations -/

/-- The loop of `getColumnIndex` from position `i` on. -/
def getColumnIndexLoop (columnName : JSString) : List Th → Nat → Option Nat
  | [], _ => none
  | h :: hs, i =>
    if h.dataSort = some columnName then some i else getColumnIndexLoop columnName hs (i + 1)

/-- The method `AdminPanel.getColumnIndex`. -/
def getColumnIndex (table : Table) (columnName : JSString) : Nat :=
  match getColumnIndexLoop columnName table.headers 0 with
  | some i => i
  | none => 0

/-- The call `classList.remove('sort-asc', 'sort-desc')`. -/
def removeSortClasses (h : Th) : Th :=
  { h with classList := h.classList.filter fun c => c != SORT_ASC && c != SORT_DESC }

/-- The call `classList.add(c)`. -/
def addClass (c : JSString) (h : Th) : Th :=
  if c ∈ h.classList then h else { h with classList := h.classList ++ [c] }

/-- Applies `f` to the first header whose `data-sort` is `column`, the element
`table.querySelector('th[data-sort="column"]')` for a column name that reads
as written. -/
def onActiveHeader (column : JSString) (f : Th → Th) : List Th → List Th
  | [] => []
  | h :: hs =>
    if h.dataSort = some column then f h :: hs else h :: onActiveHeader column f hs

/-- Applies `f` to the header at position `index`, if there is one. -/
def onHeaderAt (f : Th → Th) : Nat → List Th → List Th
  | _, [] => []
  | 0, h :: hs => f h :: hs
  | index + 1, h :: hs => h :: onHeaderAt f index hs

/-- The table with other header cells. -/
def Table.withHeaders (table : Table) (headers : List Th) : Table :=
  { table with headers := headers }

/-- The method `AdminPanel.updateSortIndicators`. The sort classes are taken off
every header first; then the selector `th[data-sort="${column}"]` is evaluated:
a column name that does not read as written makes it invalid (a `SyntaxError`,
with the classes already removed) or another selector, answered by the engine. -/
def updateSortIndicators (E : Engine) (table : Table) (column : JSString) (order : JSString) :
    Outcome Table :=
  let cleared := table.withHeaders (table.headers.map removeSortClasses)
  let sortClass := ['s', 'o', 'r', 't', '-'] ++ order
  match readAttrValue column with
  | .equals value =>
    Outcome.ok (cleared.withHeaders (onActiveHeader value (addClass sortClass) cleared.headers))
  | .invalid => Outcome.threw cleared
  | .hostDefined =>
    match E.headerQuery column cleared with
    | .syntaxError => Outcome.threw cleared
    | .header index =>
      Outcome.ok (cleared.withHeaders (onHeaderAt (addClass sortClass) index cleared.headers))
    | .noHeader => Outcome.ok cleared

/-- Insertion of `a` in front of the first element it does not come after. -/
def insertSorted {α : Type} (cmp : α → α → Int) (a : α) : List α → List α
  | [] => [a]
  | b :: l => if cmp a b ≤ 0 then a :: b :: l else b :: insertSorted cmp a l

/-- The method `Array.prototype.sort(cmp)` for a consistent comparison function:
the standard requires a stable sort, so elements that compare equal keep their
order. It is computed here by insertion from the right. -/
def arraySort {α : Type} (cmp : α → α → Int) : List α → List α
  | [] => []
  | a :: l => insertSorted cmp a (arraySort cmp l)

/-- The value of `currentOrder` in `sortTable`: `getAttribute(..) || 'asc'`. -/
def currentOrderOf (table : Table) : JSString :=
  match table.sortOrder with
  | some o => if o = [] then ASC else o
  | none => ASC

/-- The value of `newOrder` in `sortTable`. -/
def newOrderOf (table : Table) : JSString :=
  if currentOrderOf table = ASC then DESC else ASC

/-- The text the comparison reads from a row: that of the cell
`td:nth-child(index + 1)`. The default is never used: `sortTable` raises before
comparing when a row has no such cell. -/
def cellText (index : Nat) (row : Tr) : JSString :=
  (tdNthChild row (index + 1)).getD []

/-- The comparison function passed to `rows.sort` in `sortTable`. -/
def sortComparator (H : Host) (newOrder : JSString) (index : Nat) (a b : Tr) : Int :=
  if newOrder = ASC then H.localeCompare (cellText index a) (cellText index b)
  else H.localeCompare (cellText index b) (cellText index a)

/-- The method `AdminPanel.sortTable`. With two rows or more every row is
compared; the comparison raises on a row without the cell, before any row is
moved and before the attribute is set. Once the rows are moved and the
attribute is set, `updateSortIndicators` runs and may raise in its turn. -/
def sortTable (E : Engine) (H : Host) (table : Table) (column : JSString) : Outcome Table :=
  let rows := table.rows
  let newOrder := newOrderOf table
  let index := getColumnIndex table column
  if 2 ≤ rows.length && rows.any (fun row => (tdNthChild row (index + 1)).isNone) then
    Outcome.threw table
  else
    updateSortIndicators E
      { table with rows := arraySort (sortComparator H newOrder index) rows,
                   sortOrder := some newOrder } column newOrder

/-- The callback of `rows.forEach` in `handleSearch`. -/
def searchRow (H : Host) (searchTerm : JSString) (row : Tr) : Tr :=
  let text := H.toLowerCase row.textContent
  if includes text searchTerm then { row with display := [] }
  else { row with display := NONE }

/-- The method `AdminPanel.handleSearch`; `table` is what
`input.closest('.admin-card').querySelector('table')` finds. -/
def handleSearch (H : Host) (value : JSString) (table : Option Table) : Option Table :=
  let searchTerm := H.toLowerCase value
  match table with
  | none => none
  | some t => some { t with rows := t.rows.map (searchRow H searchTerm) }

/-- A consistent comparison function, in the sense `Array.prototype.sort`
asks for: reversing the arguments reverses the sign, and "not after" is
transitive. -/
def Consistent {α : Type} (cmp : α → α → Int) : Prop :=
  (∀ a b, cmp a b < 0 ↔ 0 < cmp b a) ∧ ∀ a b c, cmp a b ≤ 0 → cmp b c ≤ 0 → cmp a c ≤ 0

/-- Every body row has the cell that `sortTable(table, column)` reads. -/
def HasColumn (table : Table) (column : JSString) : Prop :=
  ∀ row ∈ table.rows, (tdNthChild row (getColumnIndex table column + 1)).isSome = true

/-- Rows in ascending order of the text in cell `index`. -/
def Ascending (H : Host) (index : Nat) (rows : List Tr) : Prop :=
  rows.Pairwise fun a b => H.localeCompare (cellText index a) (cellText index b) ≤ 0

/-- Rows in descending order of the text in cell `index`. -/
def Descending (H : Host) (index : Nat) (rows : List Tr) : Prop :=
  rows.Pairwise fun a b => H.localeCompare (cellText index b) (cellText index a) ≤ 0

/-- A row of `td` cells, shown. -/
def rowOf (cells : List JSString) : Tr :=
  { children := cells.map RowChild.td, display := [] }

/-- The table of the scenario: one column `name`, rows `Bob` and `Ann`, no
`data-sort-order` attribute. -/
def bobAnnTable : Table :=
  { sortOrder := none,
    headers := [{ dataSort := some ['n', 'a', 'm', 'e'], textContent := ['N', 'a', 'm', 'e'],
                  classList := [] }],
    rows := [rowOf [['B', 'o', 'b']], rowOf [['A', 'n', 'n']]] }

/-- A table sorted ascending on `name`, with a tie: rows `Ann x`, `Ann y`,
`Bob z`, white space between the cells, no `data-sort-order` attribute. -/
def annAnnBobTable : Table :=
  { sortOrder := none,
    headers := [{ dataSort := some ['n', 'a', 'm', 'e'], textContent := ['N', 'a', 'm', 'e'],
                  classList := [] },
                { dataSort := some ['r', 'o', 'l', 'e'], textContent := ['R', 'o', 'l', 'e'],
                  classList := [] }],
    rows := [{ children := [RowChild.td ['A', 'n', 'n'], RowChild.text [' '], RowChild.td ['x']],
               display := [] },
             { children := [RowChild.td ['A', 'n', 'n'], RowChild.text [' '], RowChild.td ['y']],
               display := NONE },
             { children := [RowChild.td ['B', 'o', 'b'], RowChild.text [' '], RowChild.td ['z']],
               display := [] }] }

/-- A table with a short row: columns `name` and `role`, rows `Bob z` and `Ann`,
the second without a cell for `role`. -/
def shortRowTable : Table :=
  { sortOrder := none,
    headers := [{ dataSort := some ['n', 'a', 'm', 'e'], textContent := ['N', 'a', 'm', 'e'],
                  classList := [] },
                { dataSort := some ['r', 'o', 'l', 'e'], textContent := ['R', 'o', 'l', 'e'],
                  classList := [] }],
    rows := [rowOf [['B', 'o', 'b'], ['z']], rowOf [['A', 'n', 'n']]] }

/-- An example page: peer 7 selected, an input holding `"  hi "`, an empty list. -/
def examplePeerPage : ChatApp :=
  { currentChat := JSVal.num 7, currentGroup := JSVal.null, currentUserId := JSVal.num 1,
    currentUserName := JSVal.str ['m', 'e'], messageInput := some [' ', ' ', 'h', 'i', ' '],
    chatMessages := some [], emitted := [] }

/-- An example page: group `"g5"` selected, an input holding `"yo"`, one rendered message. -/
def exampleGroupPage : ChatApp :=
  { currentChat := JSVal.null, currentGroup := JSVal.str ['g', '5'], currentUserId := JSVal.num 1,
    currentUserName := JSVal.str ['m', 'e'], messageInput := some ['y', 'o'],
    chatMessages := some [Node.message RECEIVED ['4'] (Content.text ['o', 'k']) ['0', '9', ':', '0', '0']],
    emitted := [] }

/-- An example page: no target selected, an input holding `"hi"`. -/
def exampleIdlePage : ChatApp :=
  { currentChat := JSVal.null, currentGroup := JSVal.null, currentUserId := JSVal.num 1,
    currentUserName := JSVal.str ['m', 'e'], messageInput := some ['h', 'i'],
    chatMessages := some [], emitted := [] }

/-- An example clock reading. -/
def exampleClock : Clock :=
  { now := 42, iso := "2024-01-01T10:20:30.000Z".toList }

/-- An example `new_group_message` payload for group `"g5"`. -/
def exampleGroupEvent : MessageData :=
  { id := JSVal.num 9, group_id := JSVal.str ['g', '5'], sender_id := JSVal.num 2,
    sender_name := JSVal.str ['a', 'l'], content := ['h', 'e', 'y'],
    timestamp := "2024-01-01T11:00:00.000Z".toList, type := TEXT }

/-! ## admin.js: export -/

/-- The call `cell.replace(/"/g, '""')`: every double quote is written twice. -/
def escapeQuotes (cell : JSString) : JSString :=
  cell.flatMap fun c => if c = '"' then ['"', '"'] else [c]

/-- The template `"${cell.replace(/"/g, '""')}"` of `exportData`. -/
def quoteCell (cell : JSString) : JSString :=
  ['"'] ++ escapeQuotes cell ++ ['"']

/-- The method `Array.prototype.join(separator)` on strings. -/
def join (separator : JSString) (parts : List JSString) : JSString :=
  separator.intercalate parts

/-- The line `exportData` builds for one body row. -/
def exportRow (row : Tr) : JSString :=
  join [','] ((row.cells.map trim).map quoteCell)

/-- The array `headers` of `exportData`: the trimmed texts of the `thead th` cells. -/
def exportHeaders (table : Table) : List JSString :=
  table.headers.map fun th => trim th.textContent

/-- The string `csv` of `exportData`. -/
def exportCSV (table : Table) : JSString :=
  join ['\n'] (join [','] (exportHeaders table) :: table.rows.map exportRow)

/-- A file handed to the browser for download. -/
structure Download where
  csv : JSString
  filename : JSString
  deriving DecidableEq, Repr

/-- The method `AdminPanel.downloadCSV`; `supported` is the test
`link.download !== undefined`. -/
def downloadCSV (supported : Bool) (csv filename : JSString) : Option Download :=
  if supported then some { csv := csv, filename := filename } else none

/-- The method `AdminPanel.exportData(type)`; `table` is what
`document.querySelector('[data-export-table="type"]')` finds, `iso` is
`new Date().toISOString()`. The result is the download triggered, if any. -/
def exportData (supported : Bool) (iso : JSString) (type : JSString) (table : Option Table) :
    Option Download :=
  match table with
  | none => none
  | some t =>
    downloadCSV supported (exportCSV t)
      (type ++ ['-', 'e', 'x', 'p', 'o', 'r', 't', '-'] ++ iso.takeWhile (fun c => c != 'T') ++
        ['.', 'c', 's', 'v'])

/-- A table with one column `Quote` and one cell `He said "hi"`, padded with
white space. -/
def quoteTable : Table :=
  { sortOrder := none,
    headers := [{ dataSort := none, textContent := ['Q', 'u', 'o', 't', 'e'], classList := [] }],
    rows := [rowOf [" He said \"hi\" ".toList]] }

/-- A table whose header texts hold a comma and a double quote. -/
def commaHeaderTable : Table :=
  { sortOrder := none,
    headers := [{ dataSort := none, textContent := "Name, first".toList, classList := [] },
                { dataSort := none, textContent := "The \"role\"".toList, classList := [] }],
    rows := [rowOf [['A', 'n', 'n'], ['x']]] }

/-! ## admin.js: bulk actions -/

/-- An `input` element of the page. -/
structure InputEl where
  /-- Whether it matches `input[type="checkbox"]`. -/
  isCheckbox : Bool
  /-- The attribute `data-item-id`, `none` when absent. -/
  dataItemId : Option JSString
  checked : Bool
  deriving DecidableEq, Repr

/-- One call of `fetch` with a JSON body `{action, items}`. -/
structure Request where
  url : JSString
  method : JSString
  action : JSString
  items : List JSString
  deriving DecidableEq, Repr

/-- The JSON answer of the bulk-action endpoint. -/
structure BulkResult where
  success : Bool
  message : JSString
  deriving DecidableEq, Repr

/-- The admin page as the bulk action sees and changes it. -/
structure AdminPage where
  inputs : List InputEl
  /-- Whether `window.Mailgram.showNotification` exists. -/
  hasNotifier : Bool
  /-- The messages shown by `alert`, oldest first. -/
  alerts : List JSString
  /-- The questions asked by `confirm`, oldest first. -/
  confirms : List JSString
  /-- The calls of `window.Mailgram.showNotification(message, type)`. -/
  notifications : List (JSString × JSString)
  /-- The calls of `fetch`, oldest first. -/
  requests : List Request
  /-- Whether `location.reload()` was called. -/
  reloaded : Bool
  deriving DecidableEq, Repr

/-- The warning of `handleBulkAction` when nothing is selected. -/
def SELECT_WARNING : JSString :=
  "لطفاً حداقل یک آیتم را انتخاب کنید".toList

/-- The question `handleBulkAction` asks before acting. -/
def confirmQuestion (action : JSString) (count : Nat) : JSString :=
  "آیا از انجام عملیات \"".toList ++ action ++ "\" روی ".toList ++ natToString count ++
    " آیتم مطمئن هستید؟".toList

/-- The method `AdminPanel.getSelectedItems`. -/
def getSelectedItems (p : AdminPage) : List JSString :=
  (p.inputs.filter fun i => i.isCheckbox && i.dataItemId.isSome && i.checked).filterMap
    fun i => i.dataItemId

/-- The method `AdminPanel.showNotification`. -/
def showNotification (message type : JSString) (p : AdminPage) : AdminPage :=
  if p.hasNotifier then { p with notifications := p.notifications ++ [(message, type)] }
  else { p with alerts := p.alerts ++ [message] }

/-- The method `AdminPanel.refreshCurrentView`. -/
def refreshCurrentView (p : AdminPage) : AdminPage :=
  { p with reloaded := true }

/-- The method `AdminPanel.performBulkAction`: the `fetch` call, then the handling
of its answer; `response = none` is a failed request or an unreadable answer. -/
def performBulkAction (action : JSString) (items : List JSString) (response : Option BulkResult)
    (p : AdminPage) : AdminPage :=
  let p1 := { p with requests := p.requests ++
    [{ url := "/admin/api/bulk-action".toList, method := ['P', 'O', 'S', 'T'],
       action := action, items := items }] }
  match response with
  | some result =>
    if result.success then
      refreshCurrentView
        (showNotification "عملیات با موفقیت انجام شد".toList "success".toList p1)
    else showNotification result.message "error".toList p1
  | none => showNotification "خطا در انجام عملیات".toList "error".toList p1

/-- The method `AdminPanel.handleBulkAction`; `confirmed` is the answer the user
gives to `confirm`. -/
def handleBulkAction (confirmed : Bool) (response : Option BulkResult) (action : JSString)
    (p : AdminPage) : AdminPage :=
  let selectedItems := getSelectedItems p
  if selectedItems.length = 0 then { p with alerts := p.alerts ++ [SELECT_WARNING] }
  else
    let p1 := { p with confirms := p.confirms ++ [confirmQuestion action selectedItems.length] }
    if confirmed then performBulkAction action selectedItems response p1 else p1

/-- An admin page with the rows `3` and `5` ticked, row `4` not ticked. -/
def examplePage : AdminPage :=
  { inputs := [{ isCheckbox := true, dataItemId := some ['3'], checked := true },
               { isCheckbox := true, dataItemId := some ['4'], checked := false },
               { isCheckbox := true, dataItemId := some ['5'], checked := true },
               { isCheckbox := false, dataItemId := none, checked := true }],
    hasNotifier := true, alerts := [], confirms := [], notifications := [], requests := [],
    reloaded := false }

/-! ## chat.js: acknowledgements and typing indicators -/

/-- ASCII white space, which separates the tokens of a `class` attribute. -/
def isAsciiWhitespace (c : Char) : Bool :=
  c == ' ' || c == '\t' || c == '\n' || c == '\x0c' || c == '\r'

/-- The class tokens of the rest of a `className`, `current` being the token
under way, last character first. -/
def classTokensFrom : JSString → JSString → List JSString
  | [], current => if current = [] then [] else [current.reverse]
  | c :: cs, current =>
    if isAsciiWhitespace c then
      if current = [] then classTokensFrom cs [] else current.reverse :: classTokensFrom cs []
    else classTokensFrom cs (c :: current)

/-- The classes an element gets from the assignment `className = text`. -/
def classTokens (text : JSString) : List JSString :=
  classTokensFrom text []

def TYPING_INDICATOR : JSString :=
  ['t', 'y', 'p', 'i', 'n', 'g', '-', 'i', 'n', 'd', 'i', 'c', 'a', 't', 'o', 'r']
def MESSAGE_TIME : JSString :=
  ['m', 'e', 's', 's', 'a', 'g', 'e', '-', 't', 'i', 'm', 'e']

/-- The classes of the media container inside `div.message-content`, from
`className = 'media-message ' + data.type + '-message'`; a text content has no
container. -/
def Content.classList : Content → List JSString
  | .text _ => []
  | .media type _ =>
    classTokens (['m', 'e', 'd', 'i', 'a', '-', 'm', 'e', 's', 's', 'a', 'g', 'e', ' '] ++ type ++
      ['-', 'm', 'e', 's', 's', 'a', 'g', 'e'])

/-- The classes of a child of `#chatMessages` itself: those of
`className = 'message ' + type` for a bubble. -/
def Node.classList : Node → List JSString
  | .message direction _ _ _ => classTokens (['m', 'e', 's', 's', 'a', 'g', 'e', ' '] ++ direction)
  | .typingIndicator _ => [TYPING_INDICATOR]

/-- Whether the node itself matches `.typing-indicator`. Class names are compared
as written, as in a page that is not in quirks mode. -/
def Node.selfIsIndicator (n : Node) : Bool :=
  n.classList.contains TYPING_INDICATOR

/-- Whether the media container of a bubble matches `.typing-indicator`. The
other elements of a bubble have fixed classes, none of them this one. -/
def Node.mediaIsIndicator : Node → Bool
  | .message _ _ content _ => content.classList.contains TYPING_INDICATOR
  | .typingIndicator _ => false

/-- Whether `querySelector('.typing-indicator')` finds an element in the node. -/
def Node.hasIndicator (n : Node) : Bool :=
  n.selfIsIndicator || n.mediaIsIndicator

/-- Whether the node holds elements built from markup in a name: a name with a
`<`, written into `innerHTML`. -/
def Node.hasMarkup (H : Host) : Node → Bool
  | .message _ _ _ _ => false
  | .typingIndicator userName => (toStr H userName).contains '<'

/-- The call `s.replace(pattern, replacement)` with a string pattern: the first
occurrence of `pattern` is replaced. -/
def replaceFirst (pattern replacement : JSString) : JSString → JSString
  | [] => if pattern = [] then replacement else []
  | c :: cs =>
    if pattern.isPrefixOf (c :: cs) then replacement ++ (c :: cs).drop pattern.length
    else c :: replaceFirst pattern replacement cs

/-- Whether a node carries `data-message-id` equal to `key`: the bubbles do, with
the id they were built from, and they are the only elements of the page that
carry the attribute, markup apart. -/
def hasMessageId (key : JSString) : Node → Bool
  | .message _ messageId _ _ => messageId == key
  | .typingIndicator _ => false

/-- Applies `f` to the first node satisfying `p`, the element a `querySelector`
call returns. -/
def updateFirst (p : Node → Bool) (f : Node → Node) : List Node → List Node
  | [] => []
  | n :: ns => if p n then f n :: ns else n :: updateFirst p f ns

/-- The assignment `timeElement.textContent = time`, where `timeElement` is the
first element of class `message-time` inside the bubble: the media container
when its classes hold `message-time`, otherwise the `div.message-time`. -/
def setTime (time : JSString) : Node → Node
  | .message direction messageId content old =>
    match content with
    | .media type child =>
      if (Content.media type child).classList.contains MESSAGE_TIME then
        .message direction messageId
          (.media type (if time = [] then none else some (MediaChild.text time))) old
      else .message direction messageId content time
    | .text _ => .message direction messageId content time
  | n => n

/-- The assignment `messageElement.dataset.messageId = messageId`. -/
def setMessageId (messageId : JSString) : Node → Node
  | .message direction _ content time => .message direction messageId content time
  | n => n

/-- The children of `#chatMessages` rewritten by `f`; nothing when the element is
absent. -/
def updateRendered (f : List Node → List Node) (s : ChatApp) : ChatApp :=
  { s with chatMessages := s.chatMessages.map f }

/-- The body of `updateMessageTimestamp` once `messageElement` is found: the
first bubble carrying `key`. The call `messageId.startsWith` raises when
`messageId` is not a string, after the time has been set. -/
def applyAck (H : Host) (messageId : JSVal) (timestamp : JSString) (key : JSString)
    (s : ChatApp) : Outcome ChatApp :=
  let timed := setTime (H.formatTime timestamp)
  match messageId with
  | .str m =>
    if startsWith m TEMP then
      Outcome.ok (updateRendered
        (updateFirst (hasMessageId key) fun n => setMessageId (replaceFirst TEMP [] m) (timed n))
        s)
    else Outcome.ok (updateRendered (updateFirst (hasMessageId key) timed) s)
  | _ => Outcome.threw (updateRendered (updateFirst (hasMessageId key) timed) s)

/-- The method `ChatApp.updateMessageTimestamp`. The id is written into the
selector `[data-message-id="${messageId}"]` as a string. An id that makes the
selector invalid raises a `SyntaxError` before anything is touched; an id that
makes it another selector, and a page with elements built from markup, are
left to the engine. Otherwise the first bubble carrying the id is taken, if
there is one. -/
def updateMessageTimestamp (E : Engine) (H : Host) (messageId : JSVal) (timestamp : JSString)
    (s : ChatApp) : Outcome ChatApp :=
  match readAttrValue (toStr H messageId) with
  | .invalid => Outcome.threw s
  | .hostDefined => E.messageQuery messageId timestamp s
  | .equals key =>
    if s.rendered.any (Node.hasMarkup H) then E.messageQuery messageId timestamp s
    else if s.rendered.any (hasMessageId key) then applyAck H messageId timestamp key s
    else Outcome.ok s

/-- The listener of `message_sent` in `setupSocketListeners`. -/
def onMessageSent (E : Engine) (H : Host) (data : MessageData) (s : ChatApp) :
    Outcome ChatApp :=
  updateMessageTimestamp E H data.id data.timestamp s

/-- The payload of `user_typing` and `group_typing`. -/
structure TypingData where
  user_name : JSVal
  group_id : JSVal
  typing : Bool
  deriving DecidableEq, Repr

/-- The call `typingIndicator.remove()` on the first element of class
`typing-indicator` in the list: a child of the list is taken out whole; the
media container of a bubble is taken out of the bubble, whose content is then
empty. -/
def removeFirstIndicator : List Node → List Node
  | [] => []
  | n :: ns =>
    if n.selfIsIndicator then ns
    else if n.mediaIsIndicator then
      (match n with
        | .message direction messageId _ time =>
          Node.message direction messageId (Content.text []) time
        | other => other) :: ns
    else n :: removeFirstIndicator ns

/-- The method `ChatApp.showTypingIndicator`. Calling `querySelector` on a
missing `#chatMessages` raises. The search goes through all descendants of the
list. The new indicator gets `data.user_name` written into its `innerHTML`. -/
def showTypingIndicator (data : TypingData) (s : ChatApp) : Outcome ChatApp :=
  match s.chatMessages with
  | none => Outcome.threw s
  | some ms =>
    let found := ms.any Node.hasIndicator
    if data.typing then
      if !found then
        Outcome.ok (scrollToBottom
          { s with chatMessages := some (ms ++ [Node.typingIndicator data.user_name]) })
      else Outcome.ok (scrollToBottom s)
    else
      if found then
        Outcome.ok (scrollToBottom { s with chatMessages := some (removeFirstIndicator ms) })
      else Outcome.ok (scrollToBottom s)

/-- The listener of `user_typing` in `setupSocketListeners`. -/
def onUserTyping (data : TypingData) (s : ChatApp) : Outcome ChatApp :=
  showTypingIndicator data s

/-- The listener of `group_typing` in `setupSocketListeners`. -/
def onGroupTyping (H : Host) (data : TypingData) (s : ChatApp) : Outcome ChatApp :=
  if truthy s.currentGroup && looseEq H data.group_id s.currentGroup then
    showTypingIndicator data s
  else Outcome.ok s

/-- The number of elements of class `typing-indicator` in a child of the list:
the child itself, the media container of a bubble, and inside an indicator the
elements the HTML parser built from the name. -/
def indicatorElements (E : Engine) (H : Host) : Node → Nat
  | .message direction messageId content time =>
    (if (Node.message direction messageId content time).selfIsIndicator then 1 else 0) +
      (if (Node.message direction messageId content time).mediaIsIndicator then 1 else 0)
  | .typingIndicator userName => 1 + E.markupIndicators (toStr H userName)

/-- The number of elements of class `typing-indicator` in the message list. -/
def indicatorCount (E : Engine) (H : Host) (s : ChatApp) : Nat :=
  (s.rendered.map (indicatorElements E H)).sum

/-- The events the invariant on typing indicators follows: typing events,
messages appended to the list, conversation switches. -/
inductive ChatEvent where
  | userTyping (data : TypingData)
  | groupTyping (data : TypingData)
  | newMessage (data : MessageData)
  | newGroupMessage (data : MessageData)
  | selectChat (userId : JSVal)
  | selectGroup (groupId : JSVal)
  | send (clk : Clock)
  | upload (clk : Clock) (file : Option JSString) (response : Option UploadData)

/-- The state after one event. An exception ends the handler of that event
only; the page goes on from the state reached. -/
def step (H : Host) (s : ChatApp) : ChatEvent → ChatApp
  | .userTyping data => (onUserTyping data s).state
  | .groupTyping data => (onGroupTyping H data s).state
  | .newMessage data => (onNewMessage H data s).state
  | .newGroupMessage data => (onNewGroupMessage H data s).state
  | .selectChat userId => setCurrentChat userId s
  | .selectGroup groupId => setCurrentGroup groupId s
  | .send clk => (sendMessage H clk s).state
  | .upload clk file response => handleFileUpload H clk file response s

/-- The state after a sequence of events. -/
def run (H : Host) (s : ChatApp) (events : List ChatEvent) : ChatApp :=
  events.foldl (step H) s

/-- Whether an event brings no element of class `typing-indicator` other than
the indicator itself: a typing event whose name has no `<`, a message whose
bubble has no media container of that class. -/
def ChatEvent.bringsNoIndicator (H : Host) : ChatEvent → Bool
  | .userTyping data => !(toStr H data.user_name).contains '<'
  | .groupTyping data => !(toStr H data.user_name).contains '<'
  | .newMessage data => !(createMessageElement H data RECEIVED).mediaIsIndicator
  | .newGroupMessage data => !(createMessageElement H data RECEIVED).mediaIsIndicator
  | _ => true

/-- An example `message_sent` payload acknowledging `temp-42`. -/
def exampleAck : MessageData :=
  { id := JSVal.str ['t', 'e', 'm', 'p', '-', '4', '2'], group_id := JSVal.undefined,
    sender_id := JSVal.num 1, sender_name := JSVal.str ['m', 'e'], content := [],
    timestamp := "2024-01-01T10:21:00.000Z".toList, type := TEXT }

/-- An example `user_typing` payload. -/
def exampleTyping : TypingData :=
  { user_name := JSVal.str ['a', 'l'], group_id := JSVal.undefined, typing := true }

/-- A `user_typing` payload whose name is markup: an element of class
`typing-indicator`. -/
def markupTyping : TypingData :=
  { user_name := JSVal.str "<div class=\"typing-indicator\"></div>".toList,
    group_id := JSVal.undefined, typing := true }

/-! ## Theorems -/

/-! ### Lemmas on strings and outcomes -/

theorem forall_mem_dropWhile_iff (p : Char → Bool) (v : JSString) :
    (∀ c ∈ v.dropWhile p, p c = true) ↔ ∀ c ∈ v, p c = true := by
  constructor
  · intro h c hc
    rw [← List.takeWhile_append_dropWhile p v] at hc
    rcases List.mem_append.mp hc with h1 | h1
    · exact List.mem_takeWhile_imp h1
    · exact h c h1
  · intro h c hc
    exact h c ((List.dropWhile_suffix p).subset hc)

/-- A string trims to the empty string exactly when it is white space only. -/
theorem trim_eq_nil_iff (v : JSString) : trim v = [] ↔ ∀ c ∈ v, isWhiteSpace c = true := by
  unfold trim
  rw [List.reverse_eq_nil_iff, List.dropWhile_eq_nil_iff]
  simp only [List.mem_reverse]
  exact forall_mem_dropWhile_iff isWhiteSpace v

theorem stopTyping_chatMessages (s : ChatApp) : (stopTyping s).chatMessages = s.chatMessages := by
  unfold stopTyping emit
  split
  · rfl
  · split <;> rfl

/-! ### Lemmas on the stable sort -/

theorem Consistent.flip {α : Type} {cmp : α → α → Int} (h : Consistent cmp) :
    Consistent fun a b => cmp b a :=
  ⟨fun a b => h.1 b a, fun a b c hab hbc => h.2 c b a hbc hab⟩

theorem Consistent.not_le {α : Type} {cmp : α → α → Int} (h : Consistent cmp) {a b : α}
    (hab : ¬ cmp a b ≤ 0) : cmp b a < 0 :=
  (h.1 b a).mpr (by omega)

theorem perm_insertSorted {α : Type} (cmp : α → α → Int) (a : α) (l : List α) :
    (insertSorted cmp a l).Perm (a :: l) := by
  induction l with
  | nil => simp [insertSorted]
  | cons b l ih =>
    simp only [insertSorted]
    split
    · exact List.Perm.refl _
    · exact (List.Perm.cons b ih).trans (List.Perm.swap a b l)

theorem perm_arraySort {α : Type} (cmp : α → α → Int) (l : List α) :
    (arraySort cmp l).Perm l := by
  induction l with
  | nil => simp [arraySort]
  | cons a l ih =>
    simp only [arraySort]
    exact (perm_insertSorted cmp a _).trans (List.Perm.cons a ih)

theorem pairwise_insertSorted {α : Type} {cmp : α → α → Int} (h : Consistent cmp) (a : α)
    (l : List α) (hl : l.Pairwise fun x y => cmp x y ≤ 0) :
    (insertSorted cmp a l).Pairwise fun x y => cmp x y ≤ 0 := by
  induction l with
  | nil => simp [insertSorted]
  | cons b l ih =>
    rw [List.pairwise_cons] at hl
    simp only [insertSorted]
    split
    · rename_i hab
      refine List.pairwise_cons.mpr ⟨?_, List.pairwise_cons.mpr hl⟩
      intro c hc
      rcases List.mem_cons.mp hc with rfl | hc
      · exact hab
      · exact h.2 a b c hab (hl.1 c hc)
    · rename_i hab
      refine List.pairwise_cons.mpr ⟨?_, ih hl.2⟩
      intro c hc
      rcases List.mem_cons.mp ((perm_insertSorted cmp a l).subset hc) with rfl | hc
      · exact le_of_lt (h.not_le hab)
      · exact hl.1 c hc

theorem pairwise_arraySort {α : Type} {cmp : α → α → Int} (h : Consistent cmp) (l : List α) :
    (arraySort cmp l).Pairwise fun x y => cmp x y ≤ 0 := by
  induction l with
  | nil => simp [arraySort]
  | cons a l ih => exact pairwise_insertSorted h a _ ih

theorem arraySort_eq_self {α : Type} (cmp : α → α → Int) (l : List α)
    (hl : l.Pairwise fun x y => cmp x y ≤ 0) : arraySort cmp l = l := by
  induction l with
  | nil => rfl
  | cons a l ih =>
    rw [List.pairwise_cons] at hl
    simp only [arraySort, ih hl.2]
    cases l with
    | nil => rfl
    | cons b l => simp [insertSorted, hl.1 b (List.mem_cons_self b l)]

theorem insertSorted_comm {α : Type} {cmp : α → α → Int} (h : Consistent cmp) {a b : α}
    (hab : cmp a b < 0) (l : List α) :
    insertSorted cmp b (insertSorted cmp a l) = insertSorted cmp a (insertSorted cmp b l) := by
  have hba : ¬ cmp b a ≤ 0 := by have := (h.1 a b).mp hab; omega
  have hab' : cmp a b ≤ 0 := le_of_lt hab
  induction l with
  | nil => simp [insertSorted, hba, hab']
  | cons c l ih =>
    by_cases hac : cmp a c ≤ 0
    · by_cases hbc : cmp b c ≤ 0
      · simp [insertSorted, hac, hbc, hba, hab']
      · simp [insertSorted, hac, hbc, hba]
    · have hbc : ¬ cmp b c ≤ 0 := fun hbc => hac (h.2 a b c hab' hbc)
      simp [insertSorted, hac, hbc, ih]

theorem arraySort_insertSorted_flip {α : Type} {cmp : α → α → Int} (h : Consistent cmp) (a : α)
    (l : List α) :
    arraySort cmp (insertSorted (fun x y => cmp y x) a l) = insertSorted cmp a (arraySort cmp l) := by
  induction l with
  | nil => simp [insertSorted, arraySort]
  | cons b l ih =>
    by_cases hba : cmp b a ≤ 0
    · simp [insertSorted, arraySort, hba]
    · have hab : cmp a b < 0 := h.not_le hba
      simp only [insertSorted, hba, if_false, arraySort, ih]
      exact insertSorted_comm h hab _

/-- Sorting by the reversed comparison first does not change the result of a
stable sort. -/
theorem arraySort_flip {α : Type} {cmp : α → α → Int} (h : Consistent cmp) (l : List α) :
    arraySort cmp (arraySort (fun x y => cmp y x) l) = arraySort cmp l := by
  induction l with
  | nil => rfl
  | cons a l ih => simp only [arraySort, arraySort_insertSorted_flip h, ih]

/-! ### Lemmas on `sortTable` -/

theorem sortComparator_consistent (H : Host) (order : JSString) (index : Nat) :
    Consistent (sortComparator H order index) := by
  unfold sortComparator
  by_cases h : order = ASC
  · simp only [h, if_true]
    exact ⟨fun a b => H.compare_swap _ _, fun a b c => H.compare_trans _ _ _⟩
  · simp only [h, if_false]
    exact ⟨fun a b => H.compare_swap _ _, fun a b c hab hbc => H.compare_trans _ _ _ hbc hab⟩

theorem sortComparator_asc (H : Host) (index : Nat) :
    sortComparator H ASC index = fun a b => sortComparator H DESC index b a := by
  funext a b
  have h : DESC ≠ ASC := by decide
  simp [sortComparator, h]

theorem sortComparator_desc (H : Host) (index : Nat) :
    sortComparator H DESC index = fun a b => sortComparator H ASC index b a := by
  funext a b
  have h : DESC ≠ ASC := by decide
  simp [sortComparator, h]

theorem getColumnIndexLoop_congr (column : JSString) (hs hs1 : List Th) (i : Nat)
    (h : hs.map Th.dataSort = hs1.map Th.dataSort) :
    getColumnIndexLoop column hs i = getColumnIndexLoop column hs1 i := by
  induction hs generalizing hs1 i with
  | nil =>
    cases hs1 with
    | nil => rfl
    | cons b l => simp at h
  | cons a l ih =>
    cases hs1 with
    | nil => simp at h
    | cons b l1 =>
      simp only [List.map_cons, List.cons.injEq] at h
      simp only [getColumnIndexLoop, h.1, ih l1 (i + 1) h.2]

theorem onActiveHeader_dataSort (column : JSString) (f : Th → Th)
    (hf : ∀ h, (f h).dataSort = h.dataSort) (hs : List Th) :
    (onActiveHeader column f hs).map Th.dataSort = hs.map Th.dataSort := by
  induction hs with
  | nil => rfl
  | cons a l ih =>
    simp only [onActiveHeader]
    split
    · simp [hf]
    · simp [ih]

theorem addClass_dataSort (c : JSString) (h : Th) : (addClass c h).dataSort = h.dataSort := by
  unfold addClass
  split <;> rfl

theorem onHeaderAt_dataSort (f : Th → Th) (hf : ∀ h, (f h).dataSort = h.dataSort)
    (index : Nat) (hs : List Th) :
    (onHeaderAt f index hs).map Th.dataSort = hs.map Th.dataSort := by
  induction hs generalizing index with
  | nil => cases index <;> rfl
  | cons a l ih =>
    cases index with
    | zero => simp [onHeaderAt, hf]
    | succ n => simp [onHeaderAt, ih]

theorem removeSortClasses_dataSort (hs : List Th) :
    (hs.map removeSortClasses).map Th.dataSort = hs.map Th.dataSort := by
  simp [List.map_map, Function.comp_def, removeSortClasses]

/-- Whatever the selector of `updateSortIndicators` does, the rows, the
attribute and the `data-sort` of the headers are as they were. -/
theorem updateSortIndicators_state (E : Engine) (t : Table) (column order : JSString) :
    (updateSortIndicators E t column order).state.rows = t.rows ∧
    (updateSortIndicators E t column order).state.sortOrder = t.sortOrder ∧
    (updateSortIndicators E t column order).state.headers.map Th.dataSort =
      t.headers.map Th.dataSort := by
  unfold updateSortIndicators
  simp only
  cases readAttrValue column with
  | equals value =>
    refine ⟨rfl, rfl, ?_⟩
    simp only [Outcome.state, Table.withHeaders]
    rw [onActiveHeader_dataSort _ _ (addClass_dataSort _), removeSortClasses_dataSort]
  | invalid => exact ⟨rfl, rfl, removeSortClasses_dataSort _⟩
  | hostDefined =>
    simp only
    cases E.headerQuery column (t.withHeaders (t.headers.map removeSortClasses)) with
    | syntaxError => exact ⟨rfl, rfl, removeSortClasses_dataSort _⟩
    | header index =>
      refine ⟨rfl, rfl, ?_⟩
      simp only [Outcome.state, Table.withHeaders]
      rw [onHeaderAt_dataSort _ (addClass_dataSort _), removeSortClasses_dataSort]
    | noHeader => exact ⟨rfl, rfl, removeSortClasses_dataSort _⟩

/-- With a column name that reads as written `updateSortIndicators` returns. -/
theorem updateSortIndicators_ok (E : Engine) (t : Table) (column order : JSString)
    (hsafe : selectorSafe column = true) :
    updateSortIndicators E t column order =
      Outcome.ok (updateSortIndicators E t column order).state := by
  simp [updateSortIndicators, readAttrValue, hsafe, Outcome.state]

theorem getColumnIndexLoop_found (column : JSString) (hs : List Th) (i : Nat)
    (h : ∃ th ∈ hs, th.dataSort = some column) :
    ∃ k, getColumnIndexLoop column hs i = some (i + k) ∧
      (hs[k]?).map Th.dataSort = some (some column) := by
  induction hs generalizing i with
  | nil => simp at h
  | cons a l ih =>
    by_cases ha : a.dataSort = some column
    · exact ⟨0, by simp [getColumnIndexLoop, ha], by simp [ha]⟩
    · have h1 : ∃ th ∈ l, th.dataSort = some column := by
        obtain ⟨th, hth, hd⟩ := h
        rcases List.mem_cons.mp hth with rfl | hth
        · exact absurd hd ha
        · exact ⟨th, hth, hd⟩
      obtain ⟨k, hk1, hk2⟩ := ih (i + 1) h1
      refine ⟨k + 1, ?_, by simpa using hk2⟩
      simp only [getColumnIndexLoop, ha, if_false, hk1]
      congr 1
      omega

/-- The column read by `sortTable` is the one whose header carries
`data-sort = column`, when there is one. -/
theorem getColumnIndex_found (t : Table) (column : JSString)
    (h : ∃ th ∈ t.headers, th.dataSort = some column) :
    (t.headers[getColumnIndex t column]?).map Th.dataSort = some (some column) := by
  obtain ⟨k, hk1, hk2⟩ := getColumnIndexLoop_found column t.headers 0 h
  simp only [getColumnIndex, hk1, Nat.zero_add]
  exact hk2

/-- When a comparison finds no cell, `sortTable` raises with the table untouched. -/
theorem sortTable_raises (E : Engine) (H : Host) (t : Table) (column : JSString)
    (hlen : 2 ≤ t.rows.length)
    (hrow : ∃ row ∈ t.rows, tdNthChild row (getColumnIndex t column + 1) = none) :
    sortTable E H t column = Outcome.threw t := by
  obtain ⟨row, hmem, hnone⟩ := hrow
  have h : t.rows.any (fun row => (tdNthChild row (getColumnIndex t column + 1)).isNone) = true :=
    List.any_eq_true.mpr ⟨row, hmem, by simp [hnone]⟩
  simp [sortTable, h, hlen]

theorem newOrderOf_cases (t : Table) :
    (newOrderOf t = DESC ∧ currentOrderOf t = ASC) ∨ (newOrderOf t = ASC ∧ currentOrderOf t ≠ ASC) := by
  unfold newOrderOf
  by_cases h : currentOrderOf t = ASC
  · exact Or.inl ⟨by simp [h], h⟩
  · exact Or.inr ⟨by simp [h], h⟩

theorem newOrderOf_ne_nil (t : Table) : newOrderOf t ≠ [] := by
  rcases newOrderOf_cases t with ⟨h, _⟩ | ⟨h, _⟩ <;> rw [h] <;> decide

theorem newOrderOf_eq (t1 : Table) (order : JSString) (ho : order ≠ [])
    (h : t1.sortOrder = some order) : newOrderOf t1 = if order = ASC then DESC else ASC := by
  simp [newOrderOf, currentOrderOf, h, ho]

/-- One application of `sortTable` on a table whose rows have the column: the
state it ends in, and that it returns when the column name reads as written. -/
theorem sortTable_state (E : Engine) (H : Host) (t : Table) (column : JSString)
    (hcol : HasColumn t column) :
    ∃ t1, (sortTable E H t column).state = t1 ∧
      t1.sortOrder = some (newOrderOf t) ∧
      t1.rows = arraySort (sortComparator H (newOrderOf t) (getColumnIndex t column)) t.rows ∧
      getColumnIndex t1 column = getColumnIndex t column ∧
      HasColumn t1 column ∧
      newOrderOf t1 = (if newOrderOf t = ASC then DESC else ASC) ∧
      (selectorSafe column = true → sortTable E H t column = Outcome.ok t1) := by
  have h : t.rows.any (fun row => (tdNthChild row (getColumnIndex t column + 1)).isNone) = false := by
    rw [List.any_eq_false]
    intro row hrow
    have := hcol row hrow
    cases hx : tdNthChild row (getColumnIndex t column + 1) <;> simp_all
  have hs : sortTable E H t column = updateSortIndicators E
      { t with rows := arraySort (sortComparator H (newOrderOf t) (getColumnIndex t column)) t.rows,
               sortOrder := some (newOrderOf t) } column (newOrderOf t) := by
    simp [sortTable, h]
  obtain ⟨hr, ho, hd⟩ := updateSortIndicators_state E
    { t with rows := arraySort (sortComparator H (newOrderOf t) (getColumnIndex t column)) t.rows,
             sortOrder := some (newOrderOf t) } column (newOrderOf t)
  rw [← hs] at hr ho hd
  have hidx : getColumnIndex (sortTable E H t column).state column = getColumnIndex t column := by
    unfold getColumnIndex
    rw [getColumnIndexLoop_congr column _ t.headers 0 hd]
  refine ⟨_, rfl, ho, hr, hidx, ?_, newOrderOf_eq _ _ (newOrderOf_ne_nil t) ho, ?_⟩
  · intro row hrow
    rw [hidx]
    rw [hr] at hrow
    exact hcol row ((perm_arraySort _ _).subset hrow)
  · intro hsafe
    rw [hs]
    exact updateSortIndicators_ok E _ column _ hsafe

theorem ascending_arraySort (H : Host) (index : Nat) (rows : List Tr) :
    Ascending H index (arraySort (sortComparator H ASC index) rows) := by
  have h := pairwise_arraySort (sortComparator_consistent H ASC index) rows
  simpa [Ascending, sortComparator] using h

theorem descending_arraySort (H : Host) (index : Nat) (rows : List Tr) :
    Descending H index (arraySort (sortComparator H DESC index) rows) := by
  have h := pairwise_arraySort (sortComparator_consistent H DESC index) rows
  have hne : DESC ≠ ASC := by decide
  simpa [Descending, sortComparator, hne] using h

/-! ### chat.js -/

/-- C1: after `setCurrentChat(userId)` the group target is `null`, the peer target
is `userId` and the rendered message list is empty; after
`setCurrentGroup(groupId)` the peer target is `null`, the group target is
`groupId` and the rendered message list is empty. -/
theorem switch_exclusive_and_cleared (s : ChatApp) (id : JSVal) :
    ((setCurrentChat id s).currentGroup = JSVal.null ∧
      (setCurrentChat id s).currentChat = id ∧
      (setCurrentChat id s).rendered = []) ∧
    ((setCurrentGroup id s).currentChat = JSVal.null ∧
      (setCurrentGroup id s).currentGroup = id ∧
      (setCurrentGroup id s).rendered = []) := by
  cases h : s.chatMessages <;>
    simp [setCurrentChat, setCurrentGroup, loadChatHistory, loadGroupHistory, scrollToBottom,
      clearMessages, ChatApp.rendered, h]

/-- C2: when the text of `#messageInput` is empty after trimming, or neither
`currentChat` nor `currentGroup` is truthy, `sendMessage` leaves the emit log
and the children of `#chatMessages` as they were; in the first case it returns
with the whole state unchanged. -/
theorem sendMessage_noop (H : Host) (clk : Clock) (s : ChatApp)
    (h : (∃ v, s.messageInput = some v ∧ trim v = []) ∨
      (truthy s.currentChat = false ∧ truthy s.currentGroup = false)) :
    (sendMessage H clk s).state.emitted = s.emitted ∧
    (sendMessage H clk s).state.chatMessages = s.chatMessages ∧
    ((∃ v, s.messageInput = some v ∧ trim v = []) → sendMessage H clk s = Outcome.ok s) := by
  have hempty : (∃ v, s.messageInput = some v ∧ trim v = []) →
      sendMessage H clk s = Outcome.ok s := by
    rintro ⟨v, hv, hm⟩
    simp [sendMessage, hv, hm]
  refine ⟨?_, ?_, hempty⟩
  · rcases h with h | ⟨hc, hg⟩
    · rw [hempty h]; rfl
    · cases hv : s.messageInput with
      | none => simp [sendMessage, hv, Outcome.state]
      | some v =>
        by_cases hm : trim v = []
        · rw [hempty ⟨v, hv, hm⟩]; rfl
        · simp [sendMessage, hv, hm, hc, hg, Outcome.bind, Outcome.state, stopTyping]
  · rcases h with h | ⟨hc, hg⟩
    · rw [hempty h]; rfl
    · cases hv : s.messageInput with
      | none => simp [sendMessage, hv, Outcome.state]
      | some v =>
        by_cases hm : trim v = []
        · rw [hempty ⟨v, hv, hm⟩]; rfl
        · simp [sendMessage, hv, hm, hc, hg, Outcome.bind, Outcome.state, stopTyping]

/-- Witness of C2: a whitespace-only input with peer 7 selected, and the input
`"hi"` with no target selected. -/
theorem sendMessage_noop_witness :
    ((sendMessage asciiHost exampleClock
        { examplePeerPage with messageInput := some [' ', '\t'] }).state.emitted = [] ∧
      (sendMessage asciiHost exampleClock
        { examplePeerPage with messageInput := some [' ', '\t'] }).state.chatMessages = some []) ∧
    ((sendMessage asciiHost exampleClock exampleIdlePage).state.emitted = [] ∧
      (sendMessage asciiHost exampleClock exampleIdlePage).state.chatMessages = some []) :=
  ⟨⟨(sendMessage_noop asciiHost exampleClock
        { examplePeerPage with messageInput := some [' ', '\t'] }
        (Or.inl ⟨[' ', '\t'], rfl, by decide⟩)).1,
      (sendMessage_noop asciiHost exampleClock
        { examplePeerPage with messageInput := some [' ', '\t'] }
        (Or.inl ⟨[' ', '\t'], rfl, by decide⟩)).2.1⟩,
    ⟨(sendMessage_noop asciiHost exampleClock exampleIdlePage (Or.inr ⟨by decide, by decide⟩)).1,
      (sendMessage_noop asciiHost exampleClock exampleIdlePage
        (Or.inr ⟨by decide, by decide⟩)).2.1⟩⟩

/-- C3: with `#messageInput` holding text that is non-empty after trimming and
`#chatMessages` present, `sendMessage` appends exactly one node, a `sent` bubble
whose id is `'temp-'` followed by the clock reading and whose content is the
trimmed text, and among the events it emits exactly one is a message event:
`private_message` with `receiver_id = currentChat` when `currentChat` is truthy,
`group_message` with `group_id = currentGroup` when `currentChat` is not truthy
and `currentGroup` is. The only other event emitted is the `typing: false` of
`stopTyping`. -/
theorem sendMessage_sends_once (H : Host) (clk : Clock) (s : ChatApp) (v : JSString)
    (ms : List Node) (hv : s.messageInput = some v) (hm : s.chatMessages = some ms)
    (hne : trim v ≠ []) :
    startsWith (TEMP ++ natToString clk.now) TEMP = true ∧
    (truthy s.currentChat = true →
      ∃ s1, sendMessage H clk s = Outcome.ok s1 ∧
        s1.chatMessages = some (ms ++ [Node.message SENT (TEMP ++ natToString clk.now)
          (Content.text (trim v)) (H.formatTime clk.iso)]) ∧
        s1.emitted = s.emitted ++
          [Emit.mk PRIVATE_MESSAGE ⟨some s.currentChat, none, some (trim v), some TEXT, none⟩,
           Emit.mk TYPING ⟨some s.currentChat, none, none, none, some false⟩] ∧
        (s1.emitted.drop s.emitted.length).filter Emit.isMessage =
          [Emit.mk PRIVATE_MESSAGE ⟨some s.currentChat, none, some (trim v), some TEXT, none⟩]) ∧
    (truthy s.currentChat = false → truthy s.currentGroup = true →
      ∃ s1, sendMessage H clk s = Outcome.ok s1 ∧
        s1.chatMessages = some (ms ++ [Node.message SENT (TEMP ++ natToString clk.now)
          (Content.text (trim v)) (H.formatTime clk.iso)]) ∧
        s1.emitted = s.emitted ++
          [Emit.mk GROUP_MESSAGE ⟨none, some s.currentGroup, some (trim v), some TEXT, none⟩,
           Emit.mk TYPING ⟨none, some s.currentGroup, none, none, some false⟩] ∧
        (s1.emitted.drop s.emitted.length).filter Emit.isMessage =
          [Emit.mk GROUP_MESSAGE ⟨none, some s.currentGroup, some (trim v), some TEXT, none⟩]) := by
  refine ⟨?_, ?_, ?_⟩
  · simp [startsWith]
  · intro hc
    have key : sendMessage H clk s = Outcome.ok (stopTyping
        { emit PRIVATE_MESSAGE ⟨some s.currentChat, none, some (trim v), some TEXT, none⟩
            { s with chatMessages := some (ms ++ [Node.message SENT (TEMP ++ natToString clk.now)
                (Content.text (trim v)) (H.formatTime clk.iso)]) } with
          messageInput := some [] }) := by
      simp [sendMessage, hv, hne, hc, sendPrivateMessage, displayMessage, hm, Outcome.bind,
        scrollToBottom, createMessageElement, toStr, emit]
    refine ⟨_, key, ?_, ?_, ?_⟩
    · simp [stopTyping_chatMessages, emit]
    · simp [stopTyping, emit, hc]
    · have h1 : (TYPING == PRIVATE_MESSAGE) = false := by decide
      have h2 : (TYPING == GROUP_MESSAGE) = false := by decide
      simp [stopTyping, emit, hc, List.filter, Emit.isMessage, h1, h2]
  · intro hc hg
    have key : sendMessage H clk s = Outcome.ok (stopTyping
        { emit GROUP_MESSAGE ⟨none, some s.currentGroup, some (trim v), some TEXT, none⟩
            { s with chatMessages := some (ms ++ [Node.message SENT (TEMP ++ natToString clk.now)
                (Content.text (trim v)) (H.formatTime clk.iso)]) } with
          messageInput := some [] }) := by
      simp [sendMessage, hv, hne, hc, hg, sendGroupMessage, displayMessage, hm, Outcome.bind,
        scrollToBottom, createMessageElement, toStr, emit]
    refine ⟨_, key, ?_, ?_, ?_⟩
    · simp [stopTyping_chatMessages, emit]
    · simp [stopTyping, emit, hc, hg]
    · have h1 : (TYPING == PRIVATE_MESSAGE) = false := by decide
      have h2 : (TYPING == GROUP_MESSAGE) = false := by decide
      simp [stopTyping, emit, hc, hg, List.filter, Emit.isMessage, h1, h2]

/-- Witness of C3: peer 7 with input `"  hi "`, and group `"g5"` with input `"yo"`. -/
theorem sendMessage_sends_once_witness :
    (∃ s1, sendMessage asciiHost exampleClock examplePeerPage = Outcome.ok s1 ∧
      s1.chatMessages = some [Node.message SENT ['t', 'e', 'm', 'p', '-', '4', '2']
        (Content.text ['h', 'i']) ['1', '0', ':', '2', '0']] ∧
      s1.emitted =
        [Emit.mk PRIVATE_MESSAGE ⟨some (JSVal.num 7), none, some ['h', 'i'], some TEXT, none⟩,
         Emit.mk TYPING ⟨some (JSVal.num 7), none, none, none, some false⟩] ∧
      (s1.emitted.drop 0).filter Emit.isMessage =
        [Emit.mk PRIVATE_MESSAGE ⟨some (JSVal.num 7), none, some ['h', 'i'], some TEXT, none⟩]) ∧
    (∃ s1, sendMessage asciiHost exampleClock exampleGroupPage = Outcome.ok s1 ∧
      s1.chatMessages = some
        [Node.message RECEIVED ['4'] (Content.text ['o', 'k']) ['0', '9', ':', '0', '0'],
         Node.message SENT ['t', 'e', 'm', 'p', '-', '4', '2']
          (Content.text ['y', 'o']) ['1', '0', ':', '2', '0']] ∧
      s1.emitted =
        [Emit.mk GROUP_MESSAGE
          ⟨none, some (JSVal.str ['g', '5']), some ['y', 'o'], some TEXT, none⟩,
         Emit.mk TYPING ⟨none, some (JSVal.str ['g', '5']), none, none, some false⟩] ∧
      (s1.emitted.drop 0).filter Emit.isMessage =
        [Emit.mk GROUP_MESSAGE
          ⟨none, some (JSVal.str ['g', '5']), some ['y', 'o'], some TEXT, none⟩]) :=
  ⟨(sendMessage_sends_once asciiHost exampleClock examplePeerPage [' ', ' ', 'h', 'i', ' '] []
      rfl rfl (by decide)).2.1 (by decide),
   (sendMessage_sends_once asciiHost exampleClock exampleGroupPage ['y', 'o']
      [Node.message RECEIVED ['4'] (Content.text ['o', 'k']) ['0', '9', ':', '0', '0']]
      rfl rfl (by decide)).2.2 (by decide) (by decide)⟩

/-- C4: the `new_group_message` listener returns with the state as it was when
`currentGroup` is not truthy or `data.group_id == currentGroup` is false; when
`currentGroup` is truthy and `data.group_id == currentGroup`, it appends to the
children of `#chatMessages` exactly one node, a `received` bubble built from the
event, and changes nothing else. -/
theorem onNewGroupMessage_filters (H : Host) (data : MessageData) (s : ChatApp) :
    (truthy s.currentGroup = false ∨ looseEq H data.group_id s.currentGroup = false →
      onNewGroupMessage H data s = Outcome.ok s) ∧
    (truthy s.currentGroup = true → looseEq H data.group_id s.currentGroup = true →
      ∀ ms, s.chatMessages = some ms →
        onNewGroupMessage H data s = Outcome.ok
          { s with chatMessages := some (ms ++ [Node.message RECEIVED (toStr H data.id)
              (if data.type = TEXT then Content.text data.content else createMediaElement data)
              (H.formatTime data.timestamp)]) }) := by
  constructor
  · rintro (h | h) <;> simp [onNewGroupMessage, h]
  · intro h1 h2 ms hm
    simp [onNewGroupMessage, h1, h2, displayMessage, hm, Outcome.bind, scrollToBottom,
      createMessageElement]

/-- Witness of C4: with group `"g5"` active an event for `"g5"` is appended, an
event for `"g6"` is not; with no group active nothing is appended. -/
theorem onNewGroupMessage_filters_witness :
    onNewGroupMessage asciiHost { exampleGroupEvent with group_id := JSVal.str ['g', '6'] }
      exampleGroupPage = Outcome.ok exampleGroupPage ∧
    onNewGroupMessage asciiHost exampleGroupEvent exampleIdlePage = Outcome.ok exampleIdlePage ∧
    onNewGroupMessage asciiHost exampleGroupEvent exampleGroupPage = Outcome.ok
      { exampleGroupPage with chatMessages := some (
          [Node.message RECEIVED ['4'] (Content.text ['o', 'k']) ['0', '9', ':', '0', '0'],
           Node.message RECEIVED ['9'] (Content.text ['h', 'e', 'y']) ['1', '1', ':', '0', '0']]) } :=
  ⟨(onNewGroupMessage_filters asciiHost { exampleGroupEvent with group_id := JSVal.str ['g', '6'] }
      exampleGroupPage).1 (Or.inr (by decide)),
   (onNewGroupMessage_filters asciiHost exampleGroupEvent exampleIdlePage).1 (Or.inl (by decide)),
   (onNewGroupMessage_filters asciiHost exampleGroupEvent exampleGroupPage).2 (by decide)
      (by decide) _ rfl⟩

/-- The kind computed by `handleFileUpload` does not reach the message: whatever
`fileType` is passed, `uploadFile` does the same. -/
theorem uploadFile_ignores_fileType (H : Host) (clk : Clock) (t1 t2 : JSString)
    (response : Option UploadData) (s : ChatApp) :
    uploadFile H clk t1 response s = uploadFile H clk t2 response s :=
  rfl

/-- C5 (evaluation): a successful upload of an `image/png` file with peer 7
selected is classified `image`, yet the bubble rendered is a text bubble showing
the URL and the event emitted has `type: 'text'`, not the image bubble and the
`type: 'image'` the classification calls for. -/
theorem upload_image_sent_as_text :
    fileTypeOf "image/png".toList = IMAGE ∧
    (handleFileUpload asciiHost exampleClock (some "image/png".toList)
        (some ⟨true, "/u/a.png".toList⟩) examplePeerPage).chatMessages =
      some [Node.message SENT ['t', 'e', 'm', 'p', '-', '4', '2']
        (Content.text "/u/a.png".toList) ['1', '0', ':', '2', '0']] ∧
    (handleFileUpload asciiHost exampleClock (some "image/png".toList)
        (some ⟨true, "/u/a.png".toList⟩) examplePeerPage).chatMessages ≠
      some [Node.message SENT ['t', 'e', 'm', 'p', '-', '4', '2']
        (Content.media IMAGE (some (MediaChild.img "/u/a.png".toList))) ['1', '0', ':', '2', '0']] ∧
    (handleFileUpload asciiHost exampleClock (some "image/png".toList)
        (some ⟨true, "/u/a.png".toList⟩) examplePeerPage).emitted =
      [Emit.mk PRIVATE_MESSAGE
        ⟨some (JSVal.num 7), none, some "/u/a.png".toList, some TEXT, none⟩] := by
  decide

/-! ### admin.js -/

/-- C6 (as stated, refuted): on the table with rows `Bob`, `Ann` and no
sort-order attribute the first `sortTable(table, 'name')` leaves `Bob, Ann`, not
`Ann, Bob`, and the second leaves `Ann, Bob`, not `Bob, Ann`. On the table
with rows `Bob z` and `Ann`, also without the attribute, `sortTable(table,
'role')` raises on the row that has no such cell and leaves the table as it
was. -/
theorem bobAnn_first_sort_is_descending :
    (sortTable exampleEngine asciiHost bobAnnTable ['n', 'a', 'm', 'e']).state.rows.map
        (cellText 0) = [['B', 'o', 'b'], ['A', 'n', 'n']] ∧
    (sortTable exampleEngine asciiHost bobAnnTable ['n', 'a', 'm', 'e']).state.rows.map
        (cellText 0) ≠ [['A', 'n', 'n'], ['B', 'o', 'b']] ∧
    (sortTable exampleEngine asciiHost
        (sortTable exampleEngine asciiHost bobAnnTable ['n', 'a', 'm', 'e']).state
        ['n', 'a', 'm', 'e']).state.rows.map (cellText 0) ≠
      [['B', 'o', 'b'], ['A', 'n', 'n']] ∧
    sortTable exampleEngine asciiHost shortRowTable ['r', 'o', 'l', 'e'] =
      Outcome.threw shortRowTable := by
  decide

/-- C6 (amended): for a table without sort-order attribute whose body rows all
have a cell in the column read, the first `sortTable(table, column)` sets the
attribute to `desc` and leaves the rows in descending order of the column
text, and the second sets it to `asc` and leaves them in ascending order; both
keep the same rows, and both return when the column name reads as written in
a selector. -/
theorem sortTable_default_desc_then_asc (E : Engine) (H : Host) (t : Table) (column : JSString)
    (hattr : t.sortOrder = none) (hcol : HasColumn t column) :
    ∃ t1 t2, (sortTable E H t column).state = t1 ∧ (sortTable E H t1 column).state = t2 ∧
      t1.sortOrder = some DESC ∧ Descending H (getColumnIndex t column) t1.rows ∧
      t1.rows.Perm t.rows ∧
      t2.sortOrder = some ASC ∧ Ascending H (getColumnIndex t column) t2.rows ∧
      t2.rows.Perm t.rows ∧
      (selectorSafe column = true →
        sortTable E H t column = Outcome.ok t1 ∧ sortTable E H t1 column = Outcome.ok t2) := by
  have hn : newOrderOf t = DESC := by simp [newOrderOf, currentOrderOf, hattr]
  obtain ⟨t1, h1, ho1, hr1, hi1, hc1, hn1, hk1⟩ := sortTable_state E H t column hcol
  obtain ⟨t2, h2, ho2, hr2, _, _, _, hk2⟩ := sortTable_state E H t1 column hc1
  have hne : DESC ≠ ASC := by decide
  rw [hn] at ho1 hr1 hn1
  simp only [hne, if_false] at hn1
  rw [hn1] at ho2 hr2
  rw [hi1] at hr2
  refine ⟨t1, t2, h1, h2, ho1, ?_, ?_, ho2, ?_, ?_, fun hs => ⟨hk1 hs, hk2 hs⟩⟩
  · rw [hr1]; exact descending_arraySort H _ _
  · rw [hr1]; exact perm_arraySort _ _
  · rw [hr2]; exact ascending_arraySort H _ _
  · rw [hr2]; exact (perm_arraySort _ _).trans (hr1 ▸ perm_arraySort _ _)

/-- Witness of C6 (amended): rows `Bob`, `Ann` stay `Bob, Ann` after the first
call and become `Ann, Bob` after the second. -/
theorem sortTable_default_desc_then_asc_witness :
    (∃ t1 t2, sortTable exampleEngine asciiHost bobAnnTable ['n', 'a', 'm', 'e'] = Outcome.ok t1 ∧
      sortTable exampleEngine asciiHost t1 ['n', 'a', 'm', 'e'] = Outcome.ok t2 ∧
      t1.sortOrder = some DESC ∧
      Descending asciiHost (getColumnIndex bobAnnTable ['n', 'a', 'm', 'e']) t1.rows ∧
      t1.rows.Perm bobAnnTable.rows ∧
      t2.sortOrder = some ASC ∧
      Ascending asciiHost (getColumnIndex bobAnnTable ['n', 'a', 'm', 'e']) t2.rows ∧
      t2.rows.Perm bobAnnTable.rows) ∧
    (sortTable exampleEngine asciiHost bobAnnTable ['n', 'a', 'm', 'e']).state.rows =
      [rowOf [['B', 'o', 'b']], rowOf [['A', 'n', 'n']]] ∧
    (sortTable exampleEngine asciiHost
        (sortTable exampleEngine asciiHost bobAnnTable ['n', 'a', 'm', 'e']).state
        ['n', 'a', 'm', 'e']).state.rows =
      [rowOf [['A', 'n', 'n']], rowOf [['B', 'o', 'b']]] := by
  obtain ⟨t1, t2, _, _, h3, h4, h5, h6, h7, h8, hk⟩ :=
    sortTable_default_desc_then_asc exampleEngine asciiHost bobAnnTable ['n', 'a', 'm', 'e'] rfl
      (by intro row hrow; revert row; decide)
  exact ⟨⟨t1, t2, (hk (by decide)).1, (hk (by decide)).2, h3, h4, h5, h6, h7, h8⟩,
    by decide, by decide⟩

/-- C7 (as stated, refuted): on the table with rows `Bob`, `Ann` and no
sort-order attribute, the rows after the first `sortTable` are in the original
order, not the opposite one, and the rows after the second are `Ann, Bob`, not
the original `Bob, Ann`. On the table with rows `Bob z` and `Ann`, sorting on
`role` raises both times and leaves the rows where they were, unsorted. -/
theorem bobAnn_two_sorts_do_not_restore :
    (sortTable exampleEngine asciiHost bobAnnTable ['n', 'a', 'm', 'e']).state.rows =
      bobAnnTable.rows ∧
    (sortTable exampleEngine asciiHost bobAnnTable ['n', 'a', 'm', 'e']).state.rows ≠
      bobAnnTable.rows.reverse ∧
    (sortTable exampleEngine asciiHost
        (sortTable exampleEngine asciiHost bobAnnTable ['n', 'a', 'm', 'e']).state
        ['n', 'a', 'm', 'e']).state.rows ≠ bobAnnTable.rows ∧
    sortTable exampleEngine asciiHost
        (sortTable exampleEngine asciiHost shortRowTable ['r', 'o', 'l', 'e']).state
        ['r', 'o', 'l', 'e'] = Outcome.threw shortRowTable := by
  decide

/-- C7 (amended): for a table whose body rows all have a cell in the column
read, two successive `sortTable` calls on that column leave the rows stably
sorted in the direction of the sort-order attribute the table started with
(ascending when it was absent or `asc`, descending otherwise). When the rows
were already in that order, the first call leaves them sorted in the opposite
direction and the second call returns them to their original order. Both calls
return when the column name reads as written in a selector. -/
theorem sortTable_twice (E : Engine) (H : Host) (t : Table) (column : JSString)
    (hcol : HasColumn t column) :
    ∃ t1 t2, (sortTable E H t column).state = t1 ∧ (sortTable E H t1 column).state = t2 ∧
      t2.rows = arraySort
        (sortComparator H (if currentOrderOf t = ASC then ASC else DESC) (getColumnIndex t column))
        t.rows ∧
      (currentOrderOf t = ASC → Ascending H (getColumnIndex t column) t.rows →
        Descending H (getColumnIndex t column) t1.rows ∧ t2.rows = t.rows) ∧
      (currentOrderOf t ≠ ASC → Descending H (getColumnIndex t column) t.rows →
        Ascending H (getColumnIndex t column) t1.rows ∧ t2.rows = t.rows) ∧
      (selectorSafe column = true →
        sortTable E H t column = Outcome.ok t1 ∧ sortTable E H t1 column = Outcome.ok t2) := by
  obtain ⟨t1, h1, _, hr1, hi1, hc1, hn1, hk1⟩ := sortTable_state E H t column hcol
  obtain ⟨t2, h2, _, hr2, _, _, _, hk2⟩ := sortTable_state E H t1 column hc1
  have hne : DESC ≠ ASC := by decide
  rw [hi1, hn1, hr1] at hr2
  rcases newOrderOf_cases t with ⟨hn, hcur⟩ | ⟨hn, hcur⟩
  · rw [hn] at hr1 hr2
    simp only [hne, if_false] at hr2
    rw [sortComparator_desc, arraySort_flip (sortComparator_consistent H ASC _)] at hr2
    refine ⟨t1, t2, h1, h2, by simpa [hcur] using hr2, ?_, fun h => absurd hcur h,
      fun hs => ⟨hk1 hs, hk2 hs⟩⟩
    intro _ hsorted
    refine ⟨hr1 ▸ descending_arraySort H _ _, ?_⟩
    rw [hr2]
    apply arraySort_eq_self
    simpa [Ascending, sortComparator] using hsorted
  · rw [hn] at hr1 hr2
    simp only [if_true] at hr2
    rw [sortComparator_asc, arraySort_flip (sortComparator_consistent H DESC _)] at hr2
    refine ⟨t1, t2, h1, h2, by simpa [hcur] using hr2, fun h => absurd h hcur, ?_,
      fun hs => ⟨hk1 hs, hk2 hs⟩⟩
    intro _ hsorted
    refine ⟨hr1 ▸ ascending_arraySort H _ _, ?_⟩
    rw [hr2]
    apply arraySort_eq_self
    simpa [Descending, sortComparator, hne] using hsorted

/-- Witness of C7 (amended): the rows `Ann x`, `Ann y`, `Bob z`, ascending on
`name` with a tie, are back in that order after two calls. -/
theorem sortTable_twice_witness :
    ∃ t1 t2, sortTable exampleEngine asciiHost annAnnBobTable ['n', 'a', 'm', 'e'] =
        Outcome.ok t1 ∧
      sortTable exampleEngine asciiHost t1 ['n', 'a', 'm', 'e'] = Outcome.ok t2 ∧
      Descending asciiHost (getColumnIndex annAnnBobTable ['n', 'a', 'm', 'e']) t1.rows ∧
      t2.rows = annAnnBobTable.rows := by
  obtain ⟨t1, t2, _, _, _, h3, _, hk⟩ :=
    sortTable_twice exampleEngine asciiHost annAnnBobTable ['n', 'a', 'm', 'e']
      (by intro row hrow; revert row; decide)
  exact ⟨t1, t2, (hk (by decide)).1, (hk (by decide)).2,
    h3 (by decide) (by unfold Ascending; decide)⟩

/-- C8 (as stated, refuted): on the table with rows `Bob z` and `Ann`, without
sort-order attribute, `sortTable(table, 'role')` raises when the comparison
reaches the row without a `role` cell: the attribute is not set and the rows
are not ordered. -/
theorem shortRow_sort_leaves_attribute :
    sortTable exampleEngine asciiHost shortRowTable ['r', 'o', 'l', 'e'] =
      Outcome.threw shortRowTable ∧
    (sortTable exampleEngine asciiHost shortRowTable ['r', 'o', 'l', 'e']).state.sortOrder ≠
      some DESC ∧
    tdNthChild (rowOf [['A', 'n', 'n']]) (getColumnIndex shortRowTable ['r', 'o', 'l', 'e'] + 1) =
      none := by
  decide

/-- C8 (amended): for a table whose body rows all have a cell in the column
read, `sortTable(table, column)` sets the sort-order attribute to `desc` when
it was absent or `asc` and to `asc` when it was `desc`; the resulting rows are
a permutation of the previous rows, in ascending order of the column text
under `localeCompare` when the new attribute is `asc` and in descending order
when it is `desc`; the column read is the one whose header has `data-sort`
equal to the column name, when there is such a header; and the call returns
when the column name reads as written in a selector. -/
theorem sortTable_flips_and_orders (E : Engine) (H : Host) (t : Table) (column : JSString)
    (hcol : HasColumn t column) :
    ∃ t1, (sortTable E H t column).state = t1 ∧
      (t.sortOrder = none ∨ t.sortOrder = some ASC → t1.sortOrder = some DESC) ∧
      (t.sortOrder = some DESC → t1.sortOrder = some ASC) ∧
      (t1.sortOrder = some ASC ∨ t1.sortOrder = some DESC) ∧
      t1.rows.Perm t.rows ∧
      (t1.sortOrder = some ASC → Ascending H (getColumnIndex t column) t1.rows) ∧
      (t1.sortOrder = some DESC → Descending H (getColumnIndex t column) t1.rows) ∧
      ((∃ th ∈ t.headers, th.dataSort = some column) →
        (t.headers[getColumnIndex t column]?).map Th.dataSort = some (some column)) ∧
      (selectorSafe column = true → sortTable E H t column = Outcome.ok t1) := by
  obtain ⟨t1, h1, ho1, hr1, _, _, _, hk1⟩ := sortTable_state E H t column hcol
  have hne : DESC ≠ ASC := by decide
  have hne1 : DESC ≠ [] := by decide
  refine ⟨t1, h1, ?_, ?_, ?_, hr1 ▸ perm_arraySort _ _, ?_, ?_, getColumnIndex_found t column,
    hk1⟩
  · rintro (h | h) <;> simp [ho1, newOrderOf, currentOrderOf, h]
  · intro h
    simp [ho1, newOrderOf, currentOrderOf, h, hne, hne1]
  · rcases newOrderOf_cases t with ⟨hn, _⟩ | ⟨hn, _⟩
    · exact Or.inr (by rw [ho1, hn])
    · exact Or.inl (by rw [ho1, hn])
  · intro h
    have hn : newOrderOf t = ASC := by rw [ho1] at h; exact Option.some.inj h
    rw [hr1, hn]
    exact ascending_arraySort H _ _
  · intro h
    have hn : newOrderOf t = DESC := by rw [ho1] at h; exact Option.some.inj h
    rw [hr1, hn]
    exact descending_arraySort H _ _

/-- Witness of C8 (amended): sorting `Ann x`, `Ann y`, `Bob z` on `role`, the
second column. -/
theorem sortTable_flips_and_orders_witness :
    ∃ t1, sortTable exampleEngine asciiHost annAnnBobTable ['r', 'o', 'l', 'e'] = Outcome.ok t1 ∧
      t1.sortOrder = some DESC ∧
      t1.rows.Perm annAnnBobTable.rows ∧
      Descending asciiHost 1 t1.rows ∧
      (annAnnBobTable.headers[1]?).map Th.dataSort = some (some ['r', 'o', 'l', 'e']) := by
  obtain ⟨t1, _, h2, _, _, h3, _, h4, h5, hk⟩ :=
    sortTable_flips_and_orders exampleEngine asciiHost annAnnBobTable ['r', 'o', 'l', 'e']
      (by intro row hrow; revert row; decide)
  exact ⟨t1, hk (by decide), h2 (Or.inl rfl), h3, h4 (h2 (Or.inl rfl)), h5 (by decide)⟩

theorem searchRow_children (H : Host) (term : JSString) (row : Tr) :
    (searchRow H term row).children = row.children := by
  simp only [searchRow]
  split <;> rfl

theorem searchRow_visible (H : Host) (term : JSString) (row : Tr) :
    (searchRow H term row).visible = true ↔ term <:+: H.toLowerCase row.textContent := by
  have h : NONE ≠ [] := by decide
  by_cases hin : term <:+: H.toLowerCase row.textContent
  · simp [searchRow, includes, hin, Tr.visible, h.symm]
  · simp [searchRow, includes, hin, Tr.visible]

theorem handleSearch_fold_some (H : Host) (terms : List JSString) (t : Table) :
    ∃ t1, terms.foldl (fun acc v => handleSearch H v acc) (some t) = some t1 := by
  induction terms generalizing t with
  | nil => exact ⟨t, rfl⟩
  | cons v vs ih => exact ih _

/-- C9: `handleSearch` keeps every body row, in the same order and with the same
content, leaves the rest of the table alone, and afterwards a row is visible
exactly when its lower-cased text contains the lower-cased search term as a
contiguous substring; a row that is not visible has `display: none`. -/
theorem handleSearch_visibility (H : Host) (value : JSString) (t : Table) :
    ∃ t1, handleSearch H value (some t) = some t1 ∧
      t1.rows.map Tr.children = t.rows.map Tr.children ∧
      t1.headers = t.headers ∧ t1.sortOrder = t.sortOrder ∧
      ∀ row ∈ t1.rows,
        (row.visible = true ↔ H.toLowerCase value <:+: H.toLowerCase row.textContent) ∧
        (row.display = [] ∨ row.display = NONE) := by
  refine ⟨_, rfl, ?_, rfl, rfl, ?_⟩
  · simp [List.map_map, Function.comp_def, searchRow_children]
  · intro row hrow
    obtain ⟨r0, _, rfl⟩ := List.mem_map.mp hrow
    have htext : (searchRow H (H.toLowerCase value) r0).textContent = r0.textContent := by
      simp [Tr.textContent, searchRow_children]
    refine ⟨by rw [htext]; exact searchRow_visible H _ r0, ?_⟩
    simp only [searchRow]
    split
    · exact Or.inl rfl
    · exact Or.inr rfl

/-- C10: whatever the display of the rows, and so after any sequence of earlier
searches, `handleSearch` with the empty search term leaves every body row
visible, with an empty inline `display`. -/
theorem handleSearch_empty_shows_all (H : Host) (t : Table) (terms : List JSString) :
    (∃ t1, handleSearch H [] (some t) = some t1 ∧
      ∀ row ∈ t1.rows, row.visible = true ∧ row.display = []) ∧
    (∃ t1, handleSearch H [] (terms.foldl (fun acc v => handleSearch H v acc) (some t)) = some t1 ∧
      t1.rows.map Tr.children = t.rows.map Tr.children ∧
      ∀ row ∈ t1.rows, row.visible = true ∧ row.display = []) := by
  have key : ∀ t0 : Table, ∃ t1, handleSearch H [] (some t0) = some t1 ∧
      ∀ row ∈ t1.rows, row.visible = true ∧ row.display = [] := by
    intro t0
    refine ⟨_, rfl, ?_⟩
    intro row hrow
    obtain ⟨r0, _, rfl⟩ := List.mem_map.mp hrow
    have h : NONE ≠ ([] : JSString) := by decide
    simp [searchRow, includes, H.toLowerCase_empty, Tr.visible, h.symm]
  have children : ∀ (vs : List JSString) (t0 : Table) (t1 : Table),
      vs.foldl (fun acc v => handleSearch H v acc) (some t0) = some t1 →
      t1.rows.map Tr.children = t0.rows.map Tr.children := by
    intro vs
    induction vs with
    | nil => intro t0 t1 h; simp at h; rw [h]
    | cons v vs ih =>
      intro t0 t1 h
      rw [ih _ t1 h]
      simp [List.map_map, Function.comp_def, searchRow_children]
  refine ⟨key t, ?_⟩
  obtain ⟨t0, h0⟩ := handleSearch_fold_some H terms t
  obtain ⟨t1, h1, h2⟩ := key t0
  refine ⟨t1, by rw [h0, h1], ?_, h2⟩
  have h3 : t1.rows.map Tr.children = t0.rows.map Tr.children := by
    have := children [[]] t0 t1 (by simpa using h1)
    exact this
  rw [h3, children terms t t0 h0]

/-! ### admin.js: export -/

/-- The header line of the CSV is the trimmed header texts joined by commas, as
they are: no quotes are put around them and none inside them is doubled. -/
theorem exportCSV_header_line (t : Table) :
    exportCSV t =
      join ['\n'] (join [','] (t.headers.map fun th => trim th.textContent) ::
        t.rows.map exportRow) :=
  rfl

/-- C11: in the CSV that `exportData` hands to the download, the line of each
body row is, in order and joined by commas, one field per `td` cell: a double
quote, the trimmed cell text with every double quote written twice, and a
closing double quote. The cell `He said "hi"` gives the field
`"He said ""hi"""`. -/
theorem exportData_body_fields (iso type : JSString) (t : Table) :
    (∃ d, exportData true iso type (some t) = some d ∧
      d.csv = join ['\n'] (join [','] (exportHeaders t) :: t.rows.map fun row =>
        join [','] (row.cells.map fun s =>
          ['"'] ++ ((trim s).flatMap fun c => if c = '"' then ['"', '"'] else [c]) ++ ['"']))) ∧
    (∀ s : JSString, (escapeQuotes s).count '"' = 2 * s.count '"' ∧
      (escapeQuotes s).filter (fun c => c != '"') = s.filter (fun c => c != '"')) ∧
    exportRow (rowOf ["He said \"hi\"".toList]) = "\"He said \"\"hi\"\"\"".toList := by
  refine ⟨⟨_, rfl, ?_⟩, ?_, by decide⟩
  · have h : exportRow = fun row => join [','] (row.cells.map fun s =>
        ['"'] ++ ((trim s).flatMap fun c => if c = '"' then ['"', '"'] else [c]) ++ ['"']) := by
      funext row
      simp [exportRow, quoteCell, escapeQuotes, List.map_map, Function.comp_def]
    simp [exportCSV, h]
  · intro s
    induction s with
    | nil => simp [escapeQuotes]
    | cons c cs ih =>
      have hcons : escapeQuotes (c :: cs) =
          (if c = '"' then ['"', '"'] else [c]) ++ escapeQuotes cs := by
        simp [escapeQuotes]
      rw [hcons]
      by_cases hc : c = '"'
      · subst hc
        simp [ih.1, ih.2]
        omega
      · have hc1 : ('"' == c) = false := by
          simp only [beq_eq_false_iff_ne, ne_eq]
          exact fun h => hc h.symm
        simp [hc, ih.1, ih.2, List.count_cons, hc1, List.filter_cons]

/-- C12 (evaluation): for the table with header texts `Name, first` and
`The "role"` and the body row `Ann`, `x`, the CSV is
`Name, first,The "role"` / `"Ann","x"`: the body cells are quoted, the header
cells are not, and the quote inside a header is not doubled. -/
theorem exportData_header_not_quoted :
    (exportData true exampleClock.iso "users".toList (some commaHeaderTable)).map Download.csv =
      some "Name, first,The \"role\"\n\"Ann\",\"x\"".toList ∧
    (exportData true exampleClock.iso "users".toList (some commaHeaderTable)).map Download.csv ≠
      some "\"Name, first\",\"The \"\"role\"\"\"\n\"Ann\",\"x\"".toList := by
  decide

/-! ### admin.js: bulk actions -/

/-- C13: with no row selected `handleBulkAction` records no request, asks no
confirmation and shows exactly one alert, the warning; with at least one row
selected it asks for confirmation once and, when the user confirms, issues
exactly one request, a `POST` to `/admin/api/bulk-action` carrying the action and
the selected ids, and when the user declines issues none and changes nothing
else. -/
theorem handleBulkAction_requests (confirmed : Bool) (response : Option BulkResult)
    (action : JSString) (p : AdminPage) :
    (getSelectedItems p = [] →
      handleBulkAction confirmed response action p =
        { p with alerts := p.alerts ++ [SELECT_WARNING] }) ∧
    (getSelectedItems p ≠ [] → confirmed = true →
      (handleBulkAction confirmed response action p).requests = p.requests ++
        [{ url := "/admin/api/bulk-action".toList, method := ['P', 'O', 'S', 'T'],
           action := action, items := getSelectedItems p }] ∧
      (handleBulkAction confirmed response action p).confirms = p.confirms ++
        [confirmQuestion action (getSelectedItems p).length]) ∧
    (getSelectedItems p ≠ [] → confirmed = false →
      handleBulkAction confirmed response action p =
        { p with confirms := p.confirms ++
            [confirmQuestion action (getSelectedItems p).length] }) := by
  refine ⟨?_, ?_, ?_⟩
  · intro h
    simp [handleBulkAction, h]
  · intro h hc
    subst hc
    have hlen : (getSelectedItems p).length ≠ 0 := by
      simpa [List.length_eq_zero] using h
    cases response with
    | none =>
      simp only [handleBulkAction, hlen, if_false, if_true, performBulkAction, showNotification]
      split <;> exact ⟨rfl, rfl⟩
    | some result =>
      simp only [handleBulkAction, hlen, if_false, if_true, performBulkAction, showNotification,
        refreshCurrentView]
      split <;> split <;> exact ⟨rfl, rfl⟩
  · intro h hc
    subst hc
    have hlen : (getSelectedItems p).length ≠ 0 := by
      simpa [List.length_eq_zero] using h
    simp [handleBulkAction, hlen]

/-- Witness of C13: with rows `3` and `5` ticked a confirmed `delete` posts
`delete` with items `3`, `5` and a declined one posts nothing; with nothing
ticked only the warning is shown. -/
theorem handleBulkAction_requests_witness :
    (handleBulkAction true (some ⟨true, []⟩) "delete".toList examplePage).requests =
      [{ url := "/admin/api/bulk-action".toList, method := ['P', 'O', 'S', 'T'],
         action := "delete".toList, items := [['3'], ['5']] }] ∧
    (handleBulkAction false (some ⟨true, []⟩) "delete".toList examplePage).requests = [] ∧
    (handleBulkAction true (some ⟨true, []⟩) "delete".toList
        { examplePage with inputs := [] }).requests = [] ∧
    (handleBulkAction true (some ⟨true, []⟩) "delete".toList
        { examplePage with inputs := [] }).alerts = [SELECT_WARNING] :=
  ⟨((handleBulkAction_requests true (some ⟨true, []⟩) "delete".toList examplePage).2.1
      (by decide) rfl).1,
    congrArg AdminPage.requests
      ((handleBulkAction_requests false (some ⟨true, []⟩) "delete".toList examplePage).2.2
        (by decide) rfl),
    congrArg AdminPage.requests
      ((handleBulkAction_requests true (some ⟨true, []⟩) "delete".toList
        { examplePage with inputs := [] }).1 rfl),
    congrArg AdminPage.alerts
      ((handleBulkAction_requests true (some ⟨true, []⟩) "delete".toList
        { examplePage with inputs := [] }).1 rfl)⟩


/-! ### admin.js: repeated sorting -/

theorem arraySort_idem {α : Type} {cmp : α → α → Int} (h : Consistent cmp) (l : List α) :
    arraySort cmp (arraySort cmp l) = arraySort cmp l :=
  arraySort_eq_self cmp _ (pairwise_arraySort h l)

/-- C16 (as stated, refuted): on the table with rows `Bob z` and `Ann`, without
sort-order attribute, each of four successive `sortTable(table, 'role')` calls
raises on the row without a `role` cell; the attribute stays absent instead of
reading `desc`, `asc`, `desc`, `asc`. -/
theorem shortRow_four_sorts_never_flip :
    sortTable exampleEngine asciiHost shortRowTable ['r', 'o', 'l', 'e'] =
      Outcome.threw shortRowTable ∧
    (sortTable exampleEngine asciiHost shortRowTable ['r', 'o', 'l', 'e']).state.sortOrder =
      none ∧
    (sortTable exampleEngine asciiHost
      (sortTable exampleEngine asciiHost
        (sortTable exampleEngine asciiHost
          (sortTable exampleEngine asciiHost shortRowTable ['r', 'o', 'l', 'e']).state
          ['r', 'o', 'l', 'e']).state
        ['r', 'o', 'l', 'e']).state
      ['r', 'o', 'l', 'e']).state.sortOrder = none := by
  decide

/-- C16 (amended): for a table whose body rows all have a cell in the column
read, with the stable sort, after four successive `sortTable` calls on the
same column the rows after the third call are in the order they had after the
first, the rows after the fourth are in the order they had after the second,
and from an absent sort-order attribute the attribute reads `desc`, `asc`,
`desc`, `asc`. The four calls return when the column name reads as written in
a selector. -/
theorem sortTable_period_two (E : Engine) (H : Host) (t : Table) (column : JSString)
    (hcol : HasColumn t column) :
    ∃ t1 t2 t3 t4, (sortTable E H t column).state = t1 ∧
      (sortTable E H t1 column).state = t2 ∧
      (sortTable E H t2 column).state = t3 ∧
      (sortTable E H t3 column).state = t4 ∧
      t3.rows = t1.rows ∧ t4.rows = t2.rows ∧
      (t.sortOrder = none →
        t1.sortOrder = some DESC ∧ t2.sortOrder = some ASC ∧
        t3.sortOrder = some DESC ∧ t4.sortOrder = some ASC) ∧
      (selectorSafe column = true →
        sortTable E H t column = Outcome.ok t1 ∧ sortTable E H t1 column = Outcome.ok t2 ∧
        sortTable E H t2 column = Outcome.ok t3 ∧ sortTable E H t3 column = Outcome.ok t4) := by
  obtain ⟨t1, h1, ho1, hr1, hi1, hc1, hn1, hk1⟩ := sortTable_state E H t column hcol
  obtain ⟨t2, h2, ho2, hr2, hi2, hc2, hn2, hk2⟩ := sortTable_state E H t1 column hc1
  obtain ⟨t3, h3, ho3, hr3, hi3, hc3, hn3, hk3⟩ := sortTable_state E H t2 column hc2
  obtain ⟨t4, h4, ho4, hr4, _, _, _, hk4⟩ := sortTable_state E H t3 column hc3
  have hne : DESC ≠ ASC := by decide
  rw [hi3, hi2, hi1] at hr4
  rw [hi2, hi1] at hr3
  rw [hi1] at hr2
  refine ⟨t1, t2, t3, t4, h1, h2, h3, h4, ?_⟩
  rcases newOrderOf_cases t with ⟨hn, hcur⟩ | ⟨hn, hcur⟩
  · rw [hn] at hn1 ho1 hr1
    simp only [hne, if_false] at hn1
    rw [hn1] at hn2 ho2 hr2
    simp only [if_true] at hn2
    rw [hn2] at hn3 ho3 hr3
    simp only [hne, if_false] at hn3
    rw [hn3] at ho4 hr4
    have e3 : t3.rows = t1.rows := by
      rw [hr3, hr2, sortComparator_asc, arraySort_flip (sortComparator_consistent H DESC _), hr1,
        arraySort_idem (sortComparator_consistent H DESC _)]
    exact ⟨e3, by rw [hr4, e3, hr2], fun _ => ⟨ho1, ho2, ho3, ho4⟩,
      fun hs => ⟨hk1 hs, hk2 hs, hk3 hs, hk4 hs⟩⟩
  · rw [hn] at hn1 ho1 hr1
    simp only [if_true] at hn1
    rw [hn1] at hn2 ho2 hr2
    simp only [hne, if_false] at hn2
    rw [hn2] at hn3 ho3 hr3
    simp only [if_true] at hn3
    rw [hn3] at ho4 hr4
    have e3 : t3.rows = t1.rows := by
      rw [hr3, hr2, sortComparator_desc, arraySort_flip (sortComparator_consistent H ASC _), hr1,
        arraySort_idem (sortComparator_consistent H ASC _)]
    refine ⟨e3, by rw [hr4, e3, hr2], fun hnone => ?_,
      fun hs => ⟨hk1 hs, hk2 hs, hk3 hs, hk4 hs⟩⟩
    exact absurd (by simp [currentOrderOf, hnone]) hcur

/-- Witness of C16 (amended): four sorts of `Bob`, `Ann` on `name` give
`Bob, Ann`, `Ann, Bob`, `Bob, Ann`, `Ann, Bob`. -/
theorem sortTable_period_two_witness :
    (∃ t1 t2 t3 t4,
      sortTable exampleEngine asciiHost bobAnnTable ['n', 'a', 'm', 'e'] = Outcome.ok t1 ∧
      sortTable exampleEngine asciiHost t1 ['n', 'a', 'm', 'e'] = Outcome.ok t2 ∧
      sortTable exampleEngine asciiHost t2 ['n', 'a', 'm', 'e'] = Outcome.ok t3 ∧
      sortTable exampleEngine asciiHost t3 ['n', 'a', 'm', 'e'] = Outcome.ok t4 ∧
      t3.rows = t1.rows ∧ t4.rows = t2.rows ∧
      t1.sortOrder = some DESC ∧ t2.sortOrder = some ASC ∧
      t3.sortOrder = some DESC ∧ t4.sortOrder = some ASC) ∧
    (sortTable exampleEngine asciiHost (sortTable exampleEngine asciiHost
      (sortTable exampleEngine asciiHost bobAnnTable ['n', 'a', 'm', 'e']).state
      ['n', 'a', 'm', 'e']).state ['n', 'a', 'm', 'e']).state.rows =
      [rowOf [['B', 'o', 'b']], rowOf [['A', 'n', 'n']]] := by
  obtain ⟨t1, t2, t3, t4, _, _, _, _, e3, e4, ho, hk⟩ :=
    sortTable_period_two exampleEngine asciiHost bobAnnTable ['n', 'a', 'm', 'e']
      (by intro row hrow; revert row; decide)
  obtain ⟨k1, k2, k3, k4⟩ := hk (by decide)
  exact ⟨⟨t1, t2, t3, t4, k1, k2, k3, k4, e3, e4, ho rfl⟩, by decide⟩

/-! ### chat.js: acknowledgements -/

theorem updateFirst_append (p : Node → Bool) (f : Node → Node) (pre post : List Node) (x : Node)
    (hpre : ∀ n ∈ pre, p n = false) (hx : p x = true) :
    updateFirst p f (pre ++ x :: post) = pre ++ f x :: post := by
  induction pre with
  | nil => simp [updateFirst, hx]
  | cons a l ih =>
    have ha : p a = false := hpre a (List.mem_cons_self a l)
    have hl : ∀ n ∈ l, p n = false := fun n hn => hpre n (List.mem_cons_of_mem a hn)
    simp [updateFirst, ha, ih hl]

theorem replaceFirst_prefix (pattern replacement rest : JSString) :
    replaceFirst pattern replacement (pattern ++ rest) = replacement ++ rest := by
  cases h : pattern ++ rest with
  | nil =>
    have h1 : pattern = [] ∧ rest = [] := List.append_eq_nil.mp h
    simp [replaceFirst, h1.1, h1.2]
  | cons c cs =>
    have hp : pattern.isPrefixOf (c :: cs) = true := by
      rw [← h]
      exact List.isPrefixOf_iff_prefix.mpr (List.prefix_append pattern rest)
    simp only [replaceFirst, hp, if_true]
    rw [← h, List.drop_left]

theorem setTime_message (time : JSString) (direction messageId : JSString) (content : Content)
    (old : JSString) (hc : content.classList.contains MESSAGE_TIME = false) :
    setTime time (Node.message direction messageId content old) =
      Node.message direction messageId content time := by
  cases content with
  | text c => rfl
  | media type child => simp only [setTime, hc]; rfl

/-- What `updateMessageTimestamp` computes for an id that reads as written in
the selector, on a page without elements built from markup. -/
theorem updateMessageTimestamp_safe (E : Engine) (H : Host) (messageId : JSVal)
    (timestamp : JSString) (s : ChatApp) (hsafe : selectorSafe (toStr H messageId) = true)
    (hplain : ∀ n ∈ s.rendered, n.hasMarkup H = false) :
    updateMessageTimestamp E H messageId timestamp s =
      if s.rendered.any (hasMessageId (toStr H messageId)) then
        applyAck H messageId timestamp (toStr H messageId) s
      else Outcome.ok s := by
  have hmark : s.rendered.any (Node.hasMarkup H) = false :=
    List.any_eq_false.mpr fun n hn => by simp [hplain n hn]
  simp [updateMessageTimestamp, readAttrValue, hsafe, hmark]

/-- C14 (as stated, refuted): for the id `a"b`, which no rendered message
carries, the selector `[data-message-id="a"b"]` is not a selector:
`updateMessageTimestamp` raises a `SyntaxError` where the claim has no error
raised. The view is unchanged. -/
theorem updateMessageTimestamp_quote_raises :
    updateMessageTimestamp exampleEngine asciiHost (JSVal.str ['a', '"', 'b'])
      exampleAck.timestamp exampleGroupPage = Outcome.threw exampleGroupPage ∧
    (∀ n ∈ exampleGroupPage.rendered, hasMessageId ['a', '"', 'b'] n = false) ∧
    readAttrValue ['a', '"', 'b'] = SelectorReading.invalid := by
  decide

/-- C14 (amended): `updateMessageTimestamp(messageId, timestamp)` for an id whose
text holds no double quote, backslash, line break or null character, on a page
without elements built from markup. When no rendered message carries the id,
it returns with the state unchanged. Otherwise the first rendered message
carrying the id (its time element being its `div.message-time`) gets the
formatted timestamp as its time, every other node stays as it is, and its id
becomes the given id without the leading `temp-` when the id is a string
starting with `temp-` and stays the same when the id is a string that does
not; when the id is not a string the time is set, the id stays and the handler
ends in a `TypeError`. -/
theorem updateMessageTimestamp_spec (E : Engine) (H : Host) (messageId : JSVal)
    (timestamp : JSString) (s : ChatApp) (hsafe : selectorSafe (toStr H messageId) = true)
    (hplain : ∀ n ∈ s.rendered, n.hasMarkup H = false) :
    ((∀ n ∈ s.rendered, hasMessageId (toStr H messageId) n = false) →
      updateMessageTimestamp E H messageId timestamp s = Outcome.ok s) ∧
    (∀ (pre post : List Node) (direction : JSString) (content : Content) (time : JSString),
      s.chatMessages =
        some (pre ++ Node.message direction (toStr H messageId) content time :: post) →
      (∀ n ∈ pre, hasMessageId (toStr H messageId) n = false) →
      content.classList.contains MESSAGE_TIME = false →
      (∀ m, messageId = JSVal.str (TEMP ++ m) →
        updateMessageTimestamp E H messageId timestamp s = Outcome.ok
          { s with chatMessages := some (pre ++
              Node.message direction m content (H.formatTime timestamp) :: post) }) ∧
      (∀ m, messageId = JSVal.str m → startsWith m TEMP = false →
        updateMessageTimestamp E H messageId timestamp s = Outcome.ok
          { s with chatMessages := some (pre ++
              Node.message direction m content (H.formatTime timestamp) :: post) }) ∧
      ((∀ m, messageId ≠ JSVal.str m) →
        updateMessageTimestamp E H messageId timestamp s = Outcome.threw
          { s with chatMessages := some (pre ++
              Node.message direction (toStr H messageId) content (H.formatTime timestamp) ::
                post) })) := by
  have hcomp := updateMessageTimestamp_safe E H messageId timestamp s hsafe hplain
  constructor
  · intro h
    have hany : s.rendered.any (hasMessageId (toStr H messageId)) = false :=
      List.any_eq_false.mpr fun n hn => by simp [h n hn]
    rw [hcomp]
    simp [hany]
  · intro pre post direction content time hs hpre hclass
    have hx : hasMessageId (toStr H messageId)
        (Node.message direction (toStr H messageId) content time) = true := by
      simp [hasMessageId]
    have hany : s.rendered.any (hasMessageId (toStr H messageId)) = true := by
      simp only [ChatApp.rendered, hs]
      exact List.any_eq_true.mpr ⟨_, by simp, hx⟩
    rw [hcomp]
    simp only [hany, if_true, applyAck]
    refine ⟨?_, ?_, ?_⟩
    · intro m hm
      subst hm
      have hst : startsWith (TEMP ++ m) TEMP = true := by simp [startsWith]
      simp only [toStr] at hs hpre hx
      simp only [toStr, hst, if_true, updateRendered, hs, Option.map_some',
        updateFirst_append _ _ pre post _ hpre hx, setTime_message _ _ _ _ _ hclass, setMessageId,
        replaceFirst_prefix, List.nil_append]
    · intro m hm hst
      subst hm
      simp only [toStr] at hs hpre hx
      simp [toStr, hst, updateRendered, hs, updateFirst_append _ _ pre post _ hpre hx,
        setTime_message _ _ _ _ _ hclass]
    · intro hm
      cases messageId with
      | str m => exact absurd rfl (hm m)
      | undefined =>
        simp only [updateRendered, hs, Option.map_some',
          updateFirst_append _ _ pre post _ hpre hx, setTime_message _ _ _ _ _ hclass]
      | null =>
        simp only [updateRendered, hs, Option.map_some',
          updateFirst_append _ _ pre post _ hpre hx, setTime_message _ _ _ _ _ hclass]
      | num k =>
        simp only [updateRendered, hs, Option.map_some',
          updateFirst_append _ _ pre post _ hpre hx, setTime_message _ _ _ _ _ hclass]

/-- Witness of C14 (amended): on a list holding the bubble `temp-42` after
another bubble, the acknowledgement of `temp-42` renames it `42` and sets its
time; the acknowledgement of an id that is not rendered changes nothing. -/
theorem updateMessageTimestamp_spec_witness :
    updateMessageTimestamp exampleEngine asciiHost (JSVal.str ['t', 'e', 'm', 'p', '-', '4', '2'])
        exampleAck.timestamp
        { exampleGroupPage with chatMessages := some (
            [Node.message RECEIVED ['4'] (Content.text ['o', 'k']) ['0', '9', ':', '0', '0'],
             Node.message SENT ['t', 'e', 'm', 'p', '-', '4', '2'] (Content.text ['y', 'o'])
               ['1', '0', ':', '2', '0']]) } =
      Outcome.ok { exampleGroupPage with chatMessages := some (
            [Node.message RECEIVED ['4'] (Content.text ['o', 'k']) ['0', '9', ':', '0', '0'],
             Node.message SENT ['4', '2'] (Content.text ['y', 'o'])
               ['1', '0', ':', '2', '1']]) } ∧
    updateMessageTimestamp exampleEngine asciiHost (JSVal.num 77) exampleAck.timestamp
      exampleGroupPage = Outcome.ok exampleGroupPage :=
  ⟨((updateMessageTimestamp_spec exampleEngine asciiHost
        (JSVal.str ['t', 'e', 'm', 'p', '-', '4', '2']) exampleAck.timestamp
        { exampleGroupPage with chatMessages := some (
            [Node.message RECEIVED ['4'] (Content.text ['o', 'k']) ['0', '9', ':', '0', '0'],
             Node.message SENT ['t', 'e', 'm', 'p', '-', '4', '2'] (Content.text ['y', 'o'])
               ['1', '0', ':', '2', '0']]) } (by decide) (by decide)).2
      [Node.message RECEIVED ['4'] (Content.text ['o', 'k']) ['0', '9', ':', '0', '0']] []
      SENT (Content.text ['y', 'o']) ['1', '0', ':', '2', '0'] rfl (by decide) (by decide)).1
      ['4', '2'] rfl,
   (updateMessageTimestamp_spec exampleEngine asciiHost (JSVal.num 77) exampleAck.timestamp
      exampleGroupPage (by decide) (by decide)).1 (by decide)⟩

/-! ### chat.js: typing indicators -/

theorem indicatorCount_congr (E : Engine) (H : Host) (s1 s2 : ChatApp)
    (h : s1.chatMessages = s2.chatMessages) : indicatorCount E H s1 = indicatorCount E H s2 := by
  simp [indicatorCount, ChatApp.rendered, h]

theorem indicatorCount_append (E : Engine) (H : Host) (s1 s2 : ChatApp) (ms : List Node)
    (n : Node) (h2 : s2.chatMessages = some ms) (h1 : s1.chatMessages = some (ms ++ [n])) :
    indicatorCount E H s1 = indicatorCount E H s2 + indicatorElements E H n := by
  simp [indicatorCount, ChatApp.rendered, h1, h2]

theorem selfIsIndicator_sent (messageId : JSString) (content : Content) (time : JSString) :
    (Node.message SENT messageId content time).selfIsIndicator = false := by
  simp only [Node.selfIsIndicator, Node.classList]
  decide

theorem selfIsIndicator_received (messageId : JSString) (content : Content) (time : JSString) :
    (Node.message RECEIVED messageId content time).selfIsIndicator = false := by
  simp only [Node.selfIsIndicator, Node.classList]
  decide

theorem hasIndicator_typingIndicator (userName : JSVal) :
    (Node.typingIndicator userName).hasIndicator = true := by
  simp [Node.hasIndicator, Node.selfIsIndicator, Node.classList]

theorem indicatorElements_pos (E : Engine) (H : Host) (n : Node) (h : n.hasIndicator = true) :
    1 ≤ indicatorElements E H n := by
  cases n with
  | typingIndicator userName => simp [indicatorElements]
  | message direction messageId content time =>
    simp only [Node.hasIndicator, Bool.or_eq_true] at h
    simp only [indicatorElements]
    rcases h with h | h <;> simp [h]

theorem indicatorElements_zero (E : Engine) (H : Host) (n : Node) (h : n.hasIndicator = false) :
    indicatorElements E H n = 0 := by
  cases n with
  | typingIndicator userName => rw [hasIndicator_typingIndicator] at h; cases h
  | message direction messageId content time =>
    simp only [Node.hasIndicator, Bool.or_eq_false_iff] at h
    simp [indicatorElements, h.1, h.2]

theorem sum_indicatorElements_zero (E : Engine) (H : Host) (ms : List Node)
    (h : ms.any Node.hasIndicator = false) : (ms.map (indicatorElements E H)).sum = 0 := by
  induction ms with
  | nil => rfl
  | cons a l ih =>
    simp only [List.any_cons, Bool.or_eq_false_iff] at h
    simp [indicatorElements_zero E H a h.1, ih h.2]

theorem sum_indicatorElements_pos (E : Engine) (H : Host) (ms : List Node)
    (h : ms.any Node.hasIndicator = true) : 1 ≤ (ms.map (indicatorElements E H)).sum := by
  obtain ⟨n, hn, hi⟩ := List.any_eq_true.mp h
  have h1 := indicatorElements_pos E H n hi
  have h2 : indicatorElements E H n ≤ (ms.map (indicatorElements E H)).sum :=
    List.single_le_sum (fun _ _ => Nat.zero_le _) _ (List.mem_map_of_mem _ hn)
  omega

theorem sum_removeFirstIndicator (E : Engine) (H : Host) (ms : List Node)
    (h : ms.any Node.hasIndicator = true) :
    ((removeFirstIndicator ms).map (indicatorElements E H)).sum + 1 ≤
      (ms.map (indicatorElements E H)).sum := by
  induction ms with
  | nil => simp at h
  | cons a l ih =>
    by_cases hs : a.selfIsIndicator = true
    · have h1 := indicatorElements_pos E H a (by simp [Node.hasIndicator, hs])
      simp only [removeFirstIndicator, hs, if_true, List.map_cons, List.sum_cons]
      omega
    · by_cases hm : a.mediaIsIndicator = true
      · cases a with
        | typingIndicator userName => simp [Node.mediaIsIndicator] at hm
        | message direction messageId content time =>
          have hs1 : (Node.message direction messageId content time).selfIsIndicator = false := by
            simpa using hs
          have hs2 : (Node.message direction messageId (Content.text []) time).selfIsIndicator =
              false := hs1
          have hm2 : (Node.message direction messageId (Content.text []) time).mediaIsIndicator =
              false := by
            simp [Node.mediaIsIndicator, Content.classList]
          have e0 : indicatorElements E H
              (Node.message direction messageId (Content.text []) time) = 0 :=
            indicatorElements_zero E H _ (by simp [Node.hasIndicator, hs2, hm2])
          have e1 : indicatorElements E H (Node.message direction messageId content time) = 1 := by
            simp [indicatorElements, hs1, hm]
          have e : removeFirstIndicator (Node.message direction messageId content time :: l) =
              Node.message direction messageId (Content.text []) time :: l := by
            simp [removeFirstIndicator, hs1, hm]
          rw [e]
          simp only [List.map_cons, List.sum_cons, e0, e1]
          omega
      · have ha : a.hasIndicator = false := by
          simp only [Node.hasIndicator, Bool.or_eq_false_iff]
          exact ⟨by simpa using hs, by simpa using hm⟩
        have hl : l.any Node.hasIndicator = true := by
          simpa [List.any_cons, ha] using h
        have := ih hl
        have e : removeFirstIndicator (a :: l) = a :: removeFirstIndicator l := by
          simp [removeFirstIndicator, hs, hm]
        rw [e]
        simp only [List.map_cons, List.sum_cons]
        omega

theorem indicatorElements_created (E : Engine) (H : Host) (data : MessageData)
    (direction : JSString) (hd : direction = SENT ∨ direction = RECEIVED)
    (hm : (createMessageElement H data direction).mediaIsIndicator = false) :
    indicatorElements E H (createMessageElement H data direction) = 0 := by
  apply indicatorElements_zero
  simp only [Node.hasIndicator, hm, Bool.or_false]
  rcases hd with rfl | rfl
  · exact selfIsIndicator_sent _ _ _
  · exact selfIsIndicator_received _ _ _

theorem indicatorCount_displayMessage (E : Engine) (H : Host) (data : MessageData)
    (direction : JSString) (s : ChatApp) (hd : direction = SENT ∨ direction = RECEIVED)
    (hm : (createMessageElement H data direction).mediaIsIndicator = false) :
    indicatorCount E H (displayMessage H data direction s).state = indicatorCount E H s := by
  cases h : s.chatMessages with
  | none => simp [displayMessage, h, Outcome.state]
  | some ms =>
    simp only [displayMessage, h, Outcome.state]
    rw [indicatorCount_append E H _ s ms (createMessageElement H data direction) h rfl,
      indicatorElements_created E H data direction hd hm]
    rfl

theorem indicatorCount_stopTyping (E : Engine) (H : Host) (s : ChatApp) :
    indicatorCount E H (stopTyping s) = indicatorCount E H s :=
  indicatorCount_congr E H _ _ (stopTyping_chatMessages s)

theorem mediaIsIndicator_text (H : Host) (data : MessageData) (direction : JSString)
    (ht : data.type = TEXT) : (createMessageElement H data direction).mediaIsIndicator = false := by
  simp [createMessageElement, ht, Node.mediaIsIndicator, Content.classList]

theorem indicatorCount_sendPrivateMessage (E : Engine) (H : Host) (clk : Clock)
    (message : JSString) (s : ChatApp) :
    indicatorCount E H (sendPrivateMessage H clk message s).state = indicatorCount E H s := by
  have h := indicatorCount_displayMessage E H
    { id := JSVal.str (TEMP ++ natToString clk.now), group_id := JSVal.undefined,
      sender_id := s.currentUserId, sender_name := s.currentUserName, content := message,
      timestamp := clk.iso, type := TEXT } SENT s (Or.inl rfl) (mediaIsIndicator_text _ _ _ rfl)
  unfold sendPrivateMessage
  simp only
  cases hd : displayMessage H
    { id := JSVal.str (TEMP ++ natToString clk.now), group_id := JSVal.undefined,
      sender_id := s.currentUserId, sender_name := s.currentUserName, content := message,
      timestamp := clk.iso, type := TEXT } SENT s with
  | ok s1 =>
    rw [hd] at h
    simp only [Outcome.bind, Outcome.state] at h ⊢
    rw [← h]
    exact indicatorCount_congr E H _ _ rfl
  | threw s1 =>
    rw [hd] at h
    exact h

theorem indicatorCount_sendGroupMessage (E : Engine) (H : Host) (clk : Clock)
    (message : JSString) (s : ChatApp) :
    indicatorCount E H (sendGroupMessage H clk message s).state = indicatorCount E H s := by
  have h := indicatorCount_displayMessage E H
    { id := JSVal.str (TEMP ++ natToString clk.now), group_id := s.currentGroup,
      sender_id := s.currentUserId, sender_name := s.currentUserName, content := message,
      timestamp := clk.iso, type := TEXT } SENT s (Or.inl rfl) (mediaIsIndicator_text _ _ _ rfl)
  unfold sendGroupMessage
  simp only
  cases hd : displayMessage H
    { id := JSVal.str (TEMP ++ natToString clk.now), group_id := s.currentGroup,
      sender_id := s.currentUserId, sender_name := s.currentUserName, content := message,
      timestamp := clk.iso, type := TEXT } SENT s with
  | ok s1 =>
    rw [hd] at h
    simp only [Outcome.bind, Outcome.state] at h ⊢
    rw [← h]
    exact indicatorCount_congr E H _ _ rfl
  | threw s1 =>
    rw [hd] at h
    exact h

theorem state_bind_ok (o : Outcome ChatApp) (f : ChatApp → ChatApp) :
    (o.bind fun s1 => Outcome.ok (f s1)).state =
      match o with
      | Outcome.ok s1 => f s1
      | Outcome.threw s1 => s1 := by
  cases o <;> rfl

theorem indicatorCount_sendMessage (E : Engine) (H : Host) (clk : Clock) (s : ChatApp) :
    indicatorCount E H (sendMessage H clk s).state = indicatorCount E H s := by
  unfold sendMessage
  cases hv : s.messageInput with
  | none => rfl
  | some v =>
    simp only
    split
    · rfl
    · rw [state_bind_ok]
      split
      · rename_i s1 h1
        rw [indicatorCount_stopTyping]
        have h2 : indicatorCount E H s1 = indicatorCount E H s := by
          split at h1
          · rw [← indicatorCount_sendPrivateMessage E H clk (trim v) s, h1]; rfl
          · split at h1
            · rw [← indicatorCount_sendGroupMessage E H clk (trim v) s, h1]; rfl
            · cases h1; rfl
        rw [← h2]
        exact indicatorCount_congr E H _ _ rfl
      · rename_i s1 h1
        split at h1
        · rw [← indicatorCount_sendPrivateMessage E H clk (trim v) s, h1]; rfl
        · split at h1
          · rw [← indicatorCount_sendGroupMessage E H clk (trim v) s, h1]; rfl
          · cases h1

theorem indicatorCount_onNewMessage (E : Engine) (H : Host) (data : MessageData) (s : ChatApp)
    (hm : (createMessageElement H data RECEIVED).mediaIsIndicator = false) :
    indicatorCount E H (onNewMessage H data s).state = indicatorCount E H s := by
  unfold onNewMessage
  rw [state_bind_ok]
  have h := indicatorCount_displayMessage E H data RECEIVED s (Or.inr rfl) hm
  cases hd : displayMessage H data RECEIVED s <;> rw [hd] at h <;> exact h

theorem indicatorCount_onNewGroupMessage (E : Engine) (H : Host) (data : MessageData)
    (s : ChatApp) (hm : (createMessageElement H data RECEIVED).mediaIsIndicator = false) :
    indicatorCount E H (onNewGroupMessage H data s).state = indicatorCount E H s := by
  unfold onNewGroupMessage
  split
  · exact indicatorCount_onNewMessage E H data s hm
  · rfl

theorem indicatorCount_clearMessages (E : Engine) (H : Host) (s : ChatApp) :
    indicatorCount E H (clearMessages s) = 0 := by
  cases h : s.chatMessages <;> simp [clearMessages, indicatorCount, ChatApp.rendered, h]

theorem indicatorCount_setCurrentChat (E : Engine) (H : Host) (userId : JSVal) (s : ChatApp) :
    indicatorCount E H (setCurrentChat userId s) = 0 :=
  indicatorCount_clearMessages E H _

theorem indicatorCount_setCurrentGroup (E : Engine) (H : Host) (groupId : JSVal) (s : ChatApp) :
    indicatorCount E H (setCurrentGroup groupId s) = 0 :=
  indicatorCount_clearMessages E H _

theorem indicatorCount_handleFileUpload (E : Engine) (H : Host) (clk : Clock)
    (file : Option JSString) (response : Option UploadData) (s : ChatApp) :
    indicatorCount E H (handleFileUpload H clk file response s) = indicatorCount E H s := by
  unfold handleFileUpload
  cases file with
  | none => rfl
  | some mime =>
    simp only [uploadFile]
    cases response with
    | none => rfl
    | some data =>
      simp only
      split
      · split
        · exact indicatorCount_sendPrivateMessage E H clk _ s
        · split
          · exact indicatorCount_sendGroupMessage E H clk _ s
          · rfl
      · rfl

/-- What `showTypingIndicator` does to the message list, when it is there. -/
theorem showTypingIndicator_some (data : TypingData) (s : ChatApp) (ms : List Node)
    (hms : s.chatMessages = some ms) :
    (data.typing = true → ms.any Node.hasIndicator = false →
      showTypingIndicator data s = Outcome.ok
        { s with chatMessages := some (ms ++ [Node.typingIndicator data.user_name]) }) ∧
    (data.typing = true → ms.any Node.hasIndicator = true →
      showTypingIndicator data s = Outcome.ok s) ∧
    (data.typing = false → ms.any Node.hasIndicator = false →
      showTypingIndicator data s = Outcome.ok s) ∧
    (data.typing = false → ms.any Node.hasIndicator = true →
      showTypingIndicator data s = Outcome.ok
        { s with chatMessages := some (removeFirstIndicator ms) }) := by
  refine ⟨?_, ?_, ?_, ?_⟩ <;> intro ht hf <;>
    simp [showTypingIndicator, hms, ht, hf, scrollToBottom]

/-- The number of `typing-indicator` elements after `showTypingIndicator`: on
`typing: true` with none in the list, one more than the markup of the name
brings; on `typing: true` with one in the list, unchanged; on `typing: false`,
at least one fewer, or none as before. -/
theorem indicatorCount_showTypingIndicator (E : Engine) (H : Host) (data : TypingData)
    (s : ChatApp) :
    (data.typing = true → indicatorCount E H s = 0 → s.chatMessages ≠ none →
      indicatorCount E H (showTypingIndicator data s).state =
        1 + E.markupIndicators (toStr H data.user_name)) ∧
    (data.typing = true → (0 < indicatorCount E H s ∨ s.chatMessages = none) →
      (showTypingIndicator data s).state = s) ∧
    (data.typing = false →
      indicatorCount E H (showTypingIndicator data s).state ≤ indicatorCount E H s - 1) := by
  cases hms : s.chatMessages with
  | none =>
    have hs : showTypingIndicator data s = Outcome.threw s := by
      simp [showTypingIndicator, hms]
    have h0 : indicatorCount E H s = 0 := by simp [indicatorCount, ChatApp.rendered, hms]
    refine ⟨fun _ _ h => absurd rfl h, fun _ _ => by rw [hs]; rfl, fun _ => ?_⟩
    rw [hs]
    simp [Outcome.state, h0]
  | some ms =>
    obtain ⟨h1, h2, h3, h4⟩ := showTypingIndicator_some data s ms hms
    have hcount : indicatorCount E H s = (ms.map (indicatorElements E H)).sum := by
      simp [indicatorCount, ChatApp.rendered, hms]
    refine ⟨?_, ?_, ?_⟩
    · intro ht h0 _
      have hf : ms.any Node.hasIndicator = false := by
        cases hany : ms.any Node.hasIndicator
        · rfl
        · have := sum_indicatorElements_pos E H ms hany
          omega
      rw [h1 ht hf]
      simp only [Outcome.state]
      rw [indicatorCount_append E H _ s ms (Node.typingIndicator data.user_name) hms rfl, h0]
      simp [indicatorElements]
    · intro ht h0
      have hf : ms.any Node.hasIndicator = true := by
        cases hany : ms.any Node.hasIndicator
        · have := sum_indicatorElements_zero E H ms hany
          rcases h0 with h0 | h0
          · omega
          · cases h0
        · rfl
      rw [h2 ht hf]
      rfl
    · intro ht
      cases hany : ms.any Node.hasIndicator
      · rw [h3 ht hany]
        have := sum_indicatorElements_zero E H ms hany
        simp only [Outcome.state]
        omega
      · rw [h4 ht hany, hcount]
        have := sum_removeFirstIndicator E H ms hany
        simp only [Outcome.state, indicatorCount, ChatApp.rendered]
        omega

theorem indicatorCount_showTypingIndicator_le (E : Engine) (H : Host) (data : TypingData)
    (s : ChatApp) (hname : (toStr H data.user_name).contains '<' = false)
    (h : indicatorCount E H s ≤ 1) :
    indicatorCount E H (showTypingIndicator data s).state ≤ 1 := by
  obtain ⟨h1, h2, h3⟩ := indicatorCount_showTypingIndicator E H data s
  have hplain : E.markupIndicators (toStr H data.user_name) = 0 :=
    E.markup_plain _ (by simpa using hname)
  cases ht : data.typing
  · have := h3 ht
    omega
  · by_cases h0 : indicatorCount E H s = 0
    · by_cases hn : s.chatMessages = none
      · rw [h2 ht (Or.inr hn)]; exact h
      · rw [h1 ht h0 hn, hplain]
    · rw [h2 ht (Or.inl (by omega))]; exact h

theorem indicatorCount_step_le (E : Engine) (H : Host) (s : ChatApp) (e : ChatEvent)
    (he : e.bringsNoIndicator H = true) (h : indicatorCount E H s ≤ 1) :
    indicatorCount E H (step H s e) ≤ 1 := by
  cases e with
  | userTyping data =>
    simp only [ChatEvent.bringsNoIndicator, Bool.not_eq_true'] at he
    exact indicatorCount_showTypingIndicator_le E H data s he h
  | groupTyping data =>
    simp only [ChatEvent.bringsNoIndicator, Bool.not_eq_true'] at he
    simp only [step, onGroupTyping]
    split
    · exact indicatorCount_showTypingIndicator_le E H data s he h
    · exact h
  | newMessage data =>
    simp only [ChatEvent.bringsNoIndicator, Bool.not_eq_true'] at he
    simp only [step]
    rw [indicatorCount_onNewMessage E H data s he]
    exact h
  | newGroupMessage data =>
    simp only [ChatEvent.bringsNoIndicator, Bool.not_eq_true'] at he
    simp only [step]
    rw [indicatorCount_onNewGroupMessage E H data s he]
    exact h
  | selectChat userId => simp only [step]; rw [indicatorCount_setCurrentChat]; omega
  | selectGroup groupId => simp only [step]; rw [indicatorCount_setCurrentGroup]; omega
  | send clk => simp only [step]; rw [indicatorCount_sendMessage]; exact h
  | upload clk file response =>
    simp only [step]
    rw [indicatorCount_handleFileUpload]
    exact h

/-- What holds of the typing indicators when no event brings markup: from a
list with at most one element of class `typing-indicator`, any sequence of
typing events with names free of `<`, of messages whose bubble has no media
container of that class, of sends, uploads and conversation switches leaves at
most one; `typing: false` then leaves none; a `group_typing` event failing the
guard changes nothing. -/
theorem indicator_invariant_without_markup (E : Engine) (H : Host) :
    (∀ (s : ChatApp) (events : List ChatEvent),
      (∀ e ∈ events, e.bringsNoIndicator H = true) →
      indicatorCount E H s ≤ 1 → indicatorCount E H (run H s events) ≤ 1) ∧
    (∀ (data : TypingData) (s : ChatApp),
      data.typing = false → indicatorCount E H s ≤ 1 →
      indicatorCount E H (showTypingIndicator data s).state = 0) ∧
    (∀ (data : TypingData) (s : ChatApp),
      truthy s.currentGroup = false ∨ looseEq H data.group_id s.currentGroup = false →
      onGroupTyping H data s = Outcome.ok s) := by
  refine ⟨?_, ?_, ?_⟩
  · intro s events
    induction events generalizing s with
    | nil => exact fun _ h => h
    | cons e es ih =>
      intro hev h
      exact ih (step H s e) (fun e1 h1 => hev e1 (List.mem_cons_of_mem e h1))
        (indicatorCount_step_le E H s e (hev e (List.mem_cons_self e es)) h)
  · intro data s ht hle
    have := (indicatorCount_showTypingIndicator E H data s).2.2 ht
    omega
  · rintro data s (h | h) <;> simp [onGroupTyping, h]

/-- C15 (evaluation): on a page with an empty message list, one `user_typing`
event with `typing: true` whose `user_name` is the markup
`<div class="typing-indicator"></div>` finds no indicator and appends one, and
the name, written into its `innerHTML`, becomes a second element of class
`typing-indicator` inside it: the list holds two such elements. For every
engine the list then holds one more than the markup of the name brings. -/
theorem markup_name_leaves_two_indicators :
    indicatorCount exampleEngine asciiHost examplePeerPage = 0 ∧
    showTypingIndicator markupTyping examplePeerPage = Outcome.ok
      { examplePeerPage with chatMessages := some [Node.typingIndicator markupTyping.user_name] } ∧
    indicatorCount exampleEngine asciiHost
      (step asciiHost examplePeerPage (ChatEvent.userTyping markupTyping)) = 2 ∧
    (∀ E : Engine, indicatorCount E asciiHost
      (step asciiHost examplePeerPage (ChatEvent.userTyping markupTyping)) =
        1 + E.markupIndicators "<div class=\"typing-indicator\"></div>".toList) := by
  refine ⟨by decide, by decide, by decide, fun E => ?_⟩
  simp [step, onUserTyping, showTypingIndicator, examplePeerPage, markupTyping, scrollToBottom,
    Outcome.state, indicatorCount, ChatApp.rendered, indicatorElements, toStr]

end Mailgram
